import Mathlib

/-!
Shallow embedding of `testmodule.py` (mercure demo processing module) and
proofs about its observable behaviour.

The embedding models:
* the JSON task descriptor and the Python-dict semantics of settings loading
  (`main`, lines 246-261);
* the filename-convention series grouping (`main`, lines 263-275);
* the per-slice transform `process_image` (lines 191-219), including the
  scipy `gaussian_filter` call (same-shape output; per-axis separable
  correlation with reflect border handling; the sigma <= 1e-15 axes are
  skipped, so an integer sigma of 0 leaves the pixel grid untouched);
* the report synthesis `create_sr` (lines 28-188);
* the orchestration loop (`main`, lines 277-289) with explicit threading of
  the `generate_uid` supply as a stream `Nat -> String`.

Machine-level caveats of the model, stated once here: pixel samples are
integers (the DICOM integer sample types), the real-valued Gaussian kernel of
the scipy call is kept abstract as a parameter `kern : Int -> List Rat`
(its float entries are not representable; no theorem below depends on the
kernel values), and casting the correlation result back to the integer sample
type truncates toward zero as the numpy cast does.
-/

/-- A parsed JSON value, as returned by Python `json.load`. Objects are
association lists; `json.load` produces dicts with unique keys, in document
order. Numbers are modelled as integers (the module's settings are integer
valued). -/
inductive Json where
  | null
  | bool (b : Bool)
  | num (n : Int)
  | str (s : String)
  | arr (xs : List Json)
  | obj (kvs : List (String × Json))

/-- Python truthiness of a JSON value (`if task.get("process", "")`). -/
def truthy : Json → Bool
  | .null => false
  | .bool b => b
  | .num n => n != 0
  | .str s => s != ""
  | .arr xs => !xs.isEmpty
  | .obj kvs => !kvs.isEmpty

/-- Python `d.get(k, default)`: succeeds only on a dict; on any other value
it raises `AttributeError` (there is no `.get`). -/
def pyGet (j : Json) (k : String) (dflt : Json) : Except String Json :=
  match j with
  | .obj kvs => .ok ((kvs.lookup k).getD dflt)
  | _ => .error ("AttributeError")

/-- Python `d[k] = v` on an insertion-ordered dict: an existing key keeps its
position and gets the new value, a new key is appended at the end. -/
def pyDictSet (d : List (String × Json)) (k : String) (v : Json) :
    List (String × Json) :=
  match d with
  | [] => [(k, v)]
  | (k', v') :: rest =>
      if k' = k then (k, v) :: rest else (k', v') :: pyDictSet rest k v

/-- Interpret a JSON array as an iterable of key/value pairs, the way
`dict.update` would (keys restricted to strings, the only key type JSON
objects produce). -/
def pairsOfJson : List Json → Option (List (String × Json))
  | [] => some []
  | .arr [.str k, v] :: rest =>
      (pairsOfJson rest).map (fun ps => (k, v) :: ps)
  | _ => none

/-- Python `settings.update(x)`. A dict merges key by key; an empty list or
empty string is an empty iterable (no-op); a list of two-element string-keyed
pairs merges those; any other argument raises. -/
def dictUpdate (d : List (String × Json)) : Json → Except String (List (String × Json))
  | .obj kvs => .ok (kvs.foldl (fun acc kv => pyDictSet acc kv.1 kv.2) d)
  | .arr xs =>
      match pairsOfJson xs with
      | some ps => .ok (ps.foldl (fun acc kv => pyDictSet acc kv.1 kv.2) d)
      | none => .error ("TypeError")
  | .str s => if s = "" then .ok d else .error ("ValueError")
  | _ => .error ("TypeError")

/-- The built-in defaults of `main` (line 254):
`settings = {"sigma": 7, "series_offset": 3000}`. -/
def defaultSettings : List (String × Json) :=
  [(("sigma"), Json.num 7), (("series_offset"), Json.num 3000)]

/-- Settings loading of `main` (lines 253-258): start from the defaults and,
when `task.get("process", "")` is truthy, update with
`task["process"].get("settings", {})`. Any Python exception on the way
(e.g. `.get` on a non-dict) is an uncaught error. -/
def loadSettings (task : Json) : Except String (List (String × Json)) :=
  match pyGet task ("process") (.str "") with
  | .error e => .error e
  | .ok p =>
      if truthy p then
        match pyGet p ("settings") (.obj []) with
        | .error e => .error e
        | .ok s => dictUpdate defaultSettings s
      else .ok defaultSettings

/-- Python `str()` of a JSON value (used by the f-string on line 261 and the
report text on line 117). Exact for the scalar values; container rendering is
abbreviated (no theorem below prints a container). -/
def pyStr : Json → String
  | .null => ("None")
  | .bool true => ("True")
  | .bool false => ("False")
  | .num n => toString n
  | .str s => s
  | .arr _ => ("[...]")
  | .obj _ => ("\x7b...\x7d")

/-- Split a character list at the first occurrence of `sep`: the part before
and the part after, or `none` when `sep` does not occur. -/
def splitFirst (sep : Char) : List Char → Option (List Char × List Char)
  | [] => none
  | c :: cs =>
      if c = sep then some ([], cs)
      else (splitFirst sep cs).map (fun p => (c :: p.1, p.2))

/-- Python `s.split("#", 1)`: a one-element list when `#` does not occur,
otherwise the part before the first `#` and everything after it. -/
def pySplit1 (s : String) : List String :=
  match splitFirst '#' s.data with
  | none => [s]
  | some p => [String.mk p.1, String.mk p.2]

/-- The substring of a filename before the first `#` (the series key the
grouping step extracts, `entry.name.split("#", 1)[0]`). -/
def seriesKeyOf (s : String) : String := (pySplit1 s).headD s

/-- The substring of a filename after the first `#` (the part
`file.split("#", 1)[1]` that `process_image` keeps as output suffix). -/
def tailAfter (s : String) : String := (pySplit1 s).getD 1 ("")

/-- Python `s.endswith(suf)`. -/
def strEndsWith (suf s : String) : Bool := suf.data.isSuffixOf s.data

/-! ### Pixel model: `scipy.ndimage.gaussian_filter`

The pixel array of a slice is a rectangular grid of integer samples.
`gaussian_filter(pixels, sigma)` with a scalar sigma normalizes it to one
sigma per axis, drops every axis whose sigma is not greater than `1e-15`
(so an integer sigma of `0` copies the input unchanged), and otherwise runs a
one-dimensional correlation along axis 0 and then axis 1 with the Gaussian
kernel of that sigma, `reflect` border handling, and output dtype equal to
the input dtype (the intermediate float result is cast back by truncation
toward zero). The kernel has `2*r+1` entries with
`r = int(truncate*sigma + 0.5)` and `truncate = 4.0`; its real-valued entries
stay abstract here as the parameter `kern`. -/

/-- The kernel radius `int(truncate*sigma + 0.5)` of `gaussian_filter1d` for
an integer sigma and the default `truncate = 4.0` (only reached for
`sigma >= 1`). -/
def gaussRadius (sigma : Int) : Nat := (4 * sigma).toNat

/-- Length of the Gaussian kernel of a given sigma: `2*r+1`. -/
def gaussKernelLength (sigma : Int) : Nat := 2 * gaussRadius sigma + 1

/-- Number of columns of a pixel grid (the length of its first row; numpy
arrays are rectangular, so every row has this length). -/
def numCols (img : List (List Int)) : Nat := (img.headD []).length

/-- A pixel grid is rectangular: every row has `numCols` entries. -/
def Rectangular (img : List (List Int)) : Prop :=
  ∀ r ∈ img, r.length = numCols img

instance (img : List (List Int)) : Decidable (Rectangular img) := by
  unfold Rectangular; infer_instance

/-- Sample at row `i`, column `j` (total, like indexing into the numpy
array; out-of-range reads never occur on rectangular input). -/
def getPx (img : List (List Int)) (i j : Nat) : Int := (img.getD i []).getD j 0

/-- Index into a length-`n` axis under the `reflect` border mode
(`(d c b a | a b c d | d c b a)`): positions are periodic with period `2n`,
and the second half of a period mirrors the first. -/
def reflectIdx (n : Nat) (z : Int) : Nat :=
  if n = 0 then 0
  else
    let m := z.emod (2 * n)
    if m < (n : Int) then m.toNat else (2 * n - 1 - m).toNat

/-- Build a `rows × cols` grid from an entry function. -/
def mapGrid (rows cols : Nat) (f : Nat → Nat → Int) : List (List Int) :=
  (List.range rows).map (fun i => (List.range cols).map (fun j => f i j))

/-- Truncate a rational toward zero, as the numpy cast of the float
correlation result back to an integer sample type does. -/
def ratTrunc (q : Rat) : Int := q.num / (q.den : Int)

/-- One output sample of `correlate1d`: the weighted sum
`sum_k w[k] * line[i + k - size/2]` over the kernel, reading the line
through an accessor that already applies the border mode. -/
def corrSum (w : List Rat) (line : Int → Rat) (i : Nat) : Rat :=
  (List.range w.length).foldl
    (fun acc k => acc + w.getD k 0 * line ((i : Int) + (k : Int) - (w.length / 2 : Nat))) 0

/-- `correlate1d` along axis 0 (down the columns) with reflect borders. -/
def filterAxis0 (w : List Rat) (img : List (List Int)) : List (List Int) :=
  mapGrid img.length (numCols img)
    (fun i j => ratTrunc (corrSum w (fun z => (getPx img (reflectIdx img.length z) j : Rat)) i))

/-- `correlate1d` along axis 1 (across the rows) with reflect borders. -/
def filterAxis1 (w : List Rat) (img : List (List Int)) : List (List Int) :=
  mapGrid img.length (numCols img)
    (fun i j => ratTrunc (corrSum w (fun z => (getPx img i (reflectIdx (numCols img) z) : Rat)) j))

/-- `scipy.ndimage.gaussian_filter(img, sigma)` on a two-dimensional integer
grid: axes with `sigma <= 1e-15` (for an integer sigma: `sigma < 1`) are
skipped, so the input is returned unchanged; otherwise the separable kernel
`kern sigma` is correlated along axis 0 and then axis 1. -/
def gaussian_filter (kern : Int → List Rat) (sigma : Int) (img : List (List Int)) :
    List (List Int) :=
  if 1 ≤ sigma then filterAxis1 (kern sigma) (filterAxis0 (kern sigma) img) else img

/-! ### The DICOM data model -/

/-- The attributes of one DICOM instance that `testmodule.py` reads or
writes. `StudyDescription` is optional (the code guards it with `hasattr`);
`dtype` records the sample datatype of the pixel array, which the module
never changes (the filtered array keeps the input dtype and the header is
not touched). -/
structure Dicom where
  SOPClassUID : String
  SOPInstanceUID : String
  StudyInstanceUID : String
  SeriesInstanceUID : String
  SeriesNumber : Int
  SeriesDescription : String
  StudyDescription : Option String
  StudyDate : String
  StudyTime : String
  PatientName : String
  PatientID : String
  AccessionNumber : String
  dtype : String
  pixels : List (List Int)
deriving DecidableEq

/-- The in-place mutation of the loaded dataset that `process_image`
performs (lines 206-217): new series UID, fresh SOP instance UID, offset
series number, marked descriptions, filtered pixels; everything else is
carried over unchanged. -/
def transformDicom (kern : Int → List Rat) (suid iuid : String) (sg off : Int)
    (d : Dicom) : Dicom :=
  { d with
    SeriesInstanceUID := suid
    SOPInstanceUID := iuid
    SeriesNumber := d.SeriesNumber + off
    SeriesDescription := "FILTER(" ++ d.SeriesDescription ++ ")"
    StudyDescription :=
      some (match d.StudyDescription with
            | some s => s ++ " OUTPUT FILTER"
            | none => "OUTPUT FILTER")
    pixels := gaussian_filter kern sg d.pixels }

/-- The per-slice transform `process_image` (lines 191-219). Takes the
reader for the input folder, the settings dict, the abstract Gaussian kernel,
the fresh instance UID this call draws from `generate_uid()`, the file name
and the new series UID; returns the output file name and the written
dataset, or the uncaught Python exception. The steps happen in source
order: the output name is composed (IndexError when the name has no `#`)
before the file is read, the series offset is added (line 210) before the
filter runs (line 216). -/
def process_image (read : String → Option Dicom) (settings : List (String × Json))
    (kern : Int → List Rat) (iuid : String) (file : String) (series_uid : String) :
    Except String (String × Dicom) :=
  match (pySplit1 file).get? 1 with
  | none => .error ("IndexError")
  | some suffix =>
    let out_filename := series_uid ++ "#" ++ suffix
    match read file with
    | none => .error ("InvalidDicomError")
    | some ds =>
      match settings.lookup ("series_offset") with
      | none => .error ("KeyError")
      | some offJ =>
        match offJ with
        | .num off =>
          match settings.lookup ("sigma") with
          | none => .error ("KeyError")
          | some sigJ =>
            match sigJ with
            | .num sigma =>
              .ok (out_filename, transformDicom kern series_uid iuid sigma off ds)
            | _ => .error ("TypeError")
        | _ => .error ("TypeError")

/-! ### The structured report model -/

/-- A coded concept (CodeValue / CodingSchemeDesignator / CodeMeaning). -/
structure CodeItem where
  CodeValue : String
  CodingSchemeDesignator : String
  CodeMeaning : String
deriving DecidableEq

/-- One hardcoded numeric measurement record of `create_sr`
(`create_measurement`, lines 136-155). -/
structure SRMeasurement where
  NumericValue : String
  unitsCode : CodeItem
  conceptName : CodeItem
deriving DecidableEq

/-- The `create_measurement(name, value, unit='mm', side='')` helper: a NUM
content item with a fixed UCUM millimeter unit and a SNOMED `Length`
concept whose meaning is `f"{side} {name} Length"`. -/
def create_measurement (nm : String) (value : Int) (side : String) : SRMeasurement :=
  { NumericValue := toString value
    unitsCode :=
      { CodeValue := "mm", CodingSchemeDesignator := "UCUM", CodeMeaning := "millimeter" }
    conceptName :=
      { CodeValue := "410668003", CodingSchemeDesignator := "SCT"
        CodeMeaning := side ++ " " ++ nm ++ " Length" } }

/-- The SR dataset `create_sr` assembles (lines 46-188), flattened into a
record: every attribute the function assigns, the free-text processing
description, the three hardcoded measurements, the evidence back-reference
and the file meta information. The dataset starts from an empty
`pydicom.Dataset()` and `PixelData` is never assigned, recorded here as an
always-`none` field. -/
structure SRDoc where
  SOPClassUID : String
  SOPInstanceUID : String
  SeriesInstanceUID : String
  StudyInstanceUID : String
  SeriesNumber : Int
  SeriesDescription : String
  StudyDescription : String
  Modality : String
  Manufacturer : String
  SpecificCharacterSet : String
  InstanceNumber : String
  ContentDate : String
  ContentTime : String
  CompletionFlag : String
  VerificationFlag : String
  InstanceCreationDate : String
  InstanceCreationTime : String
  TimezoneOffsetFromUTC : String
  PreliminaryFlag : String
  PatientName : String
  PatientID : String
  StudyDate : String
  StudyTime : String
  AccessionNumber : String
  ValueType : String
  ContinuityOfContent : String
  ConceptNameCode : CodeItem
  ObservationDateTime : String
  ObserverType : String
  ObserverCode : CodeItem
  TemplateMappingResource : String
  TemplateIdentifier : String
  ProcessingDescriptionText : String
  ProcessingDescriptionCode : CodeItem
  MeasurementsCode : CodeItem
  Measurements : List SRMeasurement
  EvidenceStudyInstanceUID : String
  EvidenceSeriesInstanceUID : String
  EvidenceSOPClassUID : String
  EvidenceSOPInstanceUID : String
  MediaStorageSOPClassUID : String
  MediaStorageSOPInstanceUID : String
  ImplementationClassUID : String
  TransferSyntaxUID : String
  PixelData : Option (List (List Int))
deriving DecidableEq

/-- The report synthesis `create_sr` (lines 28-188). Reads the reference
image from the input folder, draws the fresh SOP instance UID (`sopUid`,
line 40) and the file-meta implementation UID (`implUid`, line 179) from
`generate_uid()`, composes the output name
`series_uid + "#" + new_sop_instance_uid + ".dcm"` and assembles the
document. `settings["series_offset"]` must be a number for line 53 to add
it; `settings["sigma"]` is only formatted with `str()` on line 117. -/
def create_sr (read : String → Option Dicom) (settings : List (String × Json))
    (sopUid implUid : String) (file : String) (series_uid : String) :
    Except String (String × SRDoc) :=
  match read file with
  | none => .error ("InvalidDicomError")
  | some ref =>
    let out_filename := series_uid ++ "#" ++ sopUid ++ ".dcm"
    match settings.lookup ("series_offset") with
    | none => .error ("KeyError")
    | some offJ =>
      match offJ with
      | .num off =>
        match settings.lookup ("sigma") with
        | none => .error ("KeyError")
        | some sigJ =>
          .ok (out_filename,
            { SOPClassUID := "1.2.840.10008.5.1.4.1.1.88.11"
              SOPInstanceUID := sopUid
              SeriesInstanceUID := series_uid
              StudyInstanceUID := ref.StudyInstanceUID
              SeriesNumber := ref.SeriesNumber + off
              SeriesDescription := "SR Report"
              StudyDescription :=
                match ref.StudyDescription with
                | some s => s ++ " OUTPUT SR"
                | none => "OUTPUT SR"
              Modality := "SR"
              Manufacturer := "Mercure Test Module"
              SpecificCharacterSet := "ISO_IR 100"
              InstanceNumber := "1"
              ContentDate := ref.StudyDate
              ContentTime := ref.StudyTime
              CompletionFlag := "COMPLETE"
              VerificationFlag := "UNVERIFIED"
              InstanceCreationDate := ref.StudyDate
              InstanceCreationTime := ref.StudyTime
              TimezoneOffsetFromUTC := ""
              PreliminaryFlag := ""
              PatientName := ref.PatientName
              PatientID := ref.PatientID
              StudyDate := ref.StudyDate
              StudyTime := ref.StudyTime
              AccessionNumber := ref.AccessionNumber
              ValueType := "CONTAINER"
              ContinuityOfContent := "SEPARATE"
              ConceptNameCode :=
                { CodeValue := "11528-7", CodingSchemeDesignator := "LN"
                  CodeMeaning := "Radiology Report" }
              ObservationDateTime := ref.StudyDate ++ ref.StudyTime
              ObserverType := "DEVICE"
              ObserverCode :=
                { CodeValue := "MERCURE_TEST", CodingSchemeDesignator := "L"
                  CodeMeaning := "Mercure Test Module" }
              TemplateMappingResource := "DCMR"
              TemplateIdentifier := "2000"
              ProcessingDescriptionText :=
                "Image processed with Gaussian filter (sigma=" ++ pyStr sigJ ++ ")"
              ProcessingDescriptionCode :=
                { CodeValue := "121106", CodingSchemeDesignator := "DCM"
                  CodeMeaning := "Processing Description" }
              MeasurementsCode :=
                { CodeValue := "125007", CodingSchemeDesignator := "DCM"
                  CodeMeaning := "Measurements" }
              Measurements :=
                [create_measurement ("Tibia") 38 ("Right"),
                 create_measurement ("Tibia") 39 ("Left"),
                 create_measurement ("Femur") 38 ("Right")]
              EvidenceStudyInstanceUID := ref.StudyInstanceUID
              EvidenceSeriesInstanceUID := ref.SeriesInstanceUID
              EvidenceSOPClassUID := ref.SOPClassUID
              EvidenceSOPInstanceUID := ref.SOPInstanceUID
              MediaStorageSOPClassUID := "1.2.840.10008.5.1.4.1.1.88.11"
              MediaStorageSOPInstanceUID := sopUid
              ImplementationClassUID := implUid
              TransferSyntaxUID := "1.2.840.10008.1.2.1"
              PixelData := none })
      | _ => .error ("TypeError")

/-! ### Orchestration: `main` -/

/-- One entry of `os.scandir(in_folder)`: a name and whether it is a
directory. -/
structure DirEntry where
  name : String
  isDir : Bool
deriving DecidableEq

/-- The fate of `task.json`: absent, present but not valid JSON, or parsed.
The first two take the same `except` branch of lines 246-251. -/
inductive TaskFile where
  | missing
  | unparsable
  | parsed (j : Json)

/-- The environment of one invocation: the argument vector (including the
program name in position 0), path existence, the task descriptor, the
directory listing in discovery order, and the DICOM reader for the input
folder. -/
structure World where
  argv : List String
  pathExists : String → Bool
  task : TaskFile
  listing : List DirEntry
  readDicom : String → Option Dicom

/-- One file written to the output folder: a transformed slice or a report
document. -/
inductive OutFile where
  | image (d : Dicom)
  | report (r : SRDoc)
deriving DecidableEq

/-- Whether an output file is a transformed slice. -/
def OutFile.isImage : OutFile → Bool
  | .image _ => true
  | .report _ => false

/-- The series-number attribute of an output file. -/
def outSeriesNumber : OutFile → Int
  | .image d => d.SeriesNumber
  | .report r => r.SeriesNumber

/-- The observable outcome of a run: normal termination with an exit code,
or an uncaught exception. Both carry the stdout lines and the output files
written before the end, in order. -/
inductive RunResult where
  | exited (code : Nat) (log : List String) (outputs : List (String × OutFile))
  | crashed (msg : String) (log : List String) (outputs : List (String × OutFile))
deriving DecidableEq

/-- The output files of a run result. -/
def outputsOf : RunResult → List (String × OutFile)
  | .exited _ _ o => o
  | .crashed _ _ o => o

/-- The names of the output files of a run result. -/
def namesOfRun (r : RunResult) : List String := (outputsOf r).map Prod.fst

/-- Append a file to the group of its key, creating the group at the end of
the dict when the key is new (the Python dict insert plus
`series[seriesString].append`). -/
def assocAppend (acc : List (String × List String)) (k : String) (v : String) :
    List (String × List String) :=
  match acc with
  | [] => [(k, [v])]
  | (k', vs) :: rest =>
      if k' = k then (k', vs ++ [v]) :: rest else (k', vs) :: assocAppend rest k v

/-- The admission test of the grouping loop (line 268):
`entry.name.endswith(".dcm") and not entry.is_dir()`. -/
def matchesDcm (e : DirEntry) : Bool := strEndsWith (".dcm") e.name && !e.isDir

/-- One step of the grouping loop body (lines 268-275). -/
def groupStep (acc : List (String × List String)) (e : DirEntry) :
    List (String × List String) :=
  if matchesDcm e then assocAppend acc (seriesKeyOf e.name) e.name else acc

/-- The grouping loop of `main` (lines 266-275): fold the directory listing,
keeping entries whose name ends in `.dcm` and that are not directories, and
file each kept name under the substring before its first `#`. -/
def groupSeries (listing : List DirEntry) : List (String × List String) :=
  listing.foldl groupStep []

/-- The inner loop of `main` (lines 283-284): process every slice of one
series with the same new series UID, drawing one fresh instance UID per
slice from the stream. Returns the next UID counter and the accumulated
outputs, or the uncaught exception together with the outputs already
written. -/
def processSeries (read : String → Option Dicom) (settings : List (String × Json))
    (kern : Int → List Rat) (uidf : Nat → String) (series_uid : String) :
    List String → Nat → List (String × OutFile) →
    Except (String × List (String × OutFile)) (Nat × List (String × OutFile))
  | [], c, outs => .ok (c, outs)
  | f :: fs, c, outs =>
      match process_image read settings kern (uidf c) f series_uid with
      | .error e => .error (e, outs)
      | .ok nd => processSeries read settings kern uidf series_uid fs (c + 1) (outs ++ [(nd.1, .image nd.2)])

/-- The outer loop of `main` (lines 277-289): for every series group draw a
fresh series UID, process all slices, and—if the group is non-empty—draw a
second fresh series UID and create one SR document for the first slice
(`create_sr` itself draws two more UIDs, for the SOP instance and the
file-meta implementation class). Falling off the loop exits with status 0. -/
def runGroups (read : String → Option Dicom) (settings : List (String × Json))
    (kern : Int → List Rat) (uidf : Nat → String) (log : List String) :
    List (String × List String) → Nat → List (String × OutFile) → RunResult
  | [], _, outs => .exited 0 log outs
  | (_, files) :: rest, c, outs =>
      match processSeries read settings kern uidf (uidf c) files (c + 1) outs with
      | .error eo => .crashed eo.1 log eo.2
      | .ok co =>
          if files.isEmpty then runGroups read settings kern uidf log rest co.1 co.2
          else
            match create_sr read settings (uidf (co.1 + 1)) (uidf (co.1 + 2))
                (files.headD ("")) (uidf co.1) with
            | .error e => .crashed e log co.2
            | .ok nr =>
                runGroups read settings kern uidf log rest (co.1 + 3)
                  (co.2 ++ [(nr.1, .report nr.2)])

/-- The stdout greeting of line 230. -/
def greetingLine : String := "Hello, I am the mercure test module - Arogya"

/-- The part of `main` after the settings dict exists (lines 260-289): print
the filter strength (`settings["sigma"]`, a KeyError if absent—it never is),
group the listing and run the series loop from UID counter 0. -/
def runAfterSettings (kern : Int → List Rat) (uidf : Nat → String) (w : World)
    (settings : List (String × Json)) (log : List String) : RunResult :=
  match settings.lookup ("sigma") with
  | none => .crashed ("KeyError") log []
  | some sv =>
      runGroups w.readDicom settings kern uidf
        (log ++ ["Filter strength: " ++ pyStr sv])
        (groupSeries w.listing) 0 []

/-- The entry point `main` (lines 222-289): greeting, argument check, path
check, task-descriptor load (missing or unparsable is a printed error and
`sys.exit(1)`), settings load (a shape the dict operations reject is an
uncaught exception), then the series loop. -/
def mainRun (kern : Int → List Rat) (uidf : Nat → String) (w : World) : RunResult :=
  let log0 := [greetingLine]
  if w.argv.length < 3 then
    .exited 1 (log0 ++ ["Error: Missing arguments!", "Usage: testmodule [input-folder] [output-folder]"]) []
  else
    let in_folder := w.argv.getD 1 ("")
    let out_folder := w.argv.getD 2 ("")
    if !(w.pathExists in_folder && w.pathExists out_folder) then
      .exited 1 (log0 ++ ["IN/OUT paths do not exist"]) []
    else
      match w.task with
      | .missing => .exited 1 (log0 ++ ["Error: Task file task.json not found"]) []
      | .unparsable => .exited 1 (log0 ++ ["Error: Task file task.json not found"]) []
      | .parsed task =>
          match loadSettings task with
          | .error e => .crashed e log0 []
          | .ok settings => runAfterSettings kern uidf w settings log0

/-! ### Specification-side characterizations used in theorem statements -/

/-- The names, in discovery order, of the matching files of key `k`: the
listing filtered to admitted entries whose series key is `k`. Used to state
what one group of `groupSeries` must contain. -/
def groupFiles (listing : List DirEntry) (k : String) : List String :=
  (listing.filter (fun e => matchesDcm e && (seriesKeyOf e.name == k))).map DirEntry.name

/-- The output file names one invocation of the per-series loop emits when
its UID counter starts at `c`: each slice keeps its name after the `#` and
gets the group series UID `uidf c` in front; a non-empty group appends one
report named with the separately drawn series UID `uidf (c+n+1)` and SOP
instance UID `uidf (c+n+2)`. -/
def specBlock (uidf : Nat → String) (c : Nat) (files : List String) : List String :=
  files.map (fun f => uidf c ++ "#" ++ tailAfter f) ++
    (if files.isEmpty then []
     else [uidf (c + files.length + 1) ++ "#" ++ uidf (c + files.length + 2) ++ ".dcm"])

/-- The UID counter after one group invocation that started at `c`: one
series UID, one instance UID per slice, and—when the group is non-empty—the
report series UID, SOP instance UID and implementation class UID. -/
def nextC (c : Nat) (files : List String) : Nat :=
  if files.isEmpty then c + 1 else c + files.length + 4

/-- The per-invocation output-name blocks of a whole run, in group order,
starting at UID counter `c`. -/
def specNames (uidf : Nat → String) : List (String × List String) → Nat → List (List String)
  | [], _ => []
  | kfs :: rest, c => specBlock uidf c kfs.2 :: specNames uidf rest (nextC c kfs.2)

/-- The UID counter after all groups have run, starting from `c`. -/
def uidTotal : List (String × List String) → Nat → Nat
  | [], c => c
  | kfs :: rest, c => uidTotal rest (nextC c kfs.2)

/-! ### Concrete fixtures for witness instantiations -/

/-- A deterministic stand-in for the `generate_uid()` stream in concrete
runs: `U0, U1, U2, ...` (injective, free of `#`, distinct from the sample
input series keys used below). -/
def fixtureUid (n : Nat) : String := "U" ++ Nat.repr n

/-- A stand-in kernel for concrete runs (no theorem depends on kernel
values). -/
def fixtureKern : Int → List Rat := fun _ => [1]

/-- A minimal valid DICOM instance used as concrete input. -/
def fixtureDicom : Dicom :=
  { SOPClassUID := "1.2.840.10008.5.1.4.1.1.4"
    SOPInstanceUID := "1.2.3.4"
    StudyInstanceUID := "1.2.3"
    SeriesInstanceUID := "1.2.3.9"
    SeriesNumber := 5
    SeriesDescription := "T1"
    StudyDescription := some ("HEAD")
    StudyDate := "20240101"
    StudyTime := "120000"
    PatientName := "DOE^JANE"
    PatientID := "PID1"
    AccessionNumber := "ACC1"
    dtype := "uint16"
    pixels := [[1, 2], [3, 4]] }

/-- Build a run environment with the standard two existing folders and a
given descriptor, listing and reader. -/
def fixtureWorld (task : TaskFile) (listing : List DirEntry)
    (read : String → Option Dicom) : World :=
  { argv := ["testmodule", "in", "out"]
    pathExists := fun _ => true
    task := task
    listing := listing
    readDicom := read }

/-! ## String-splitting lemmas -/

theorem splitFirst_eq_none {sep : Char} {l : List Char} (h : sep ∉ l) :
    splitFirst sep l = none := by
  induction l with
  | nil => rfl
  | cons c cs ih =>
      simp only [List.mem_cons, not_or] at h
      have hne : ¬c = sep := fun hc => h.1 hc.symm
      simp [splitFirst, hne, ih h.2]

theorem splitFirst_append {sep : Char} {l1 : List Char} (l2 : List Char) (h : sep ∉ l1) :
    splitFirst sep (l1 ++ sep :: l2) = some (l1, l2) := by
  induction l1 with
  | nil => simp [splitFirst]
  | cons c cs ih =>
      simp only [List.mem_cons, not_or] at h
      have hne : ¬c = sep := fun hc => h.1 hc.symm
      simp [splitFirst, hne, ih h.2]

theorem splitFirst_isSome_of_mem {sep : Char} {l : List Char} (h : sep ∈ l) :
    ∃ p, splitFirst sep l = some p := by
  induction l with
  | nil => cases h
  | cons c cs ih =>
      by_cases hc : c = sep
      · exact ⟨([], cs), by simp [splitFirst, hc]⟩
      · have hm : sep ∈ cs := by
          cases List.mem_cons.mp h with
          | inl h1 => exact absurd h1.symm hc
          | inr h2 => exact h2
        obtain ⟨p, hp⟩ := ih hm
        exact ⟨(c :: p.1, p.2), by simp [splitFirst, hc, hp]⟩

theorem data_append_hash (a t : String) :
    (a ++ "#" ++ t).data = a.data ++ '#' :: t.data := by
  simp [String.data_append]

theorem pySplit1_noHash {s : String} (h : '#' ∉ s.data) : pySplit1 s = [s] := by
  unfold pySplit1
  rw [splitFirst_eq_none h]

theorem pySplit1_hash (a t : String) (h : '#' ∉ a.data) :
    pySplit1 (a ++ "#" ++ t) = [a, t] := by
  unfold pySplit1
  rw [data_append_hash, splitFirst_append _ h]

theorem seriesKeyOf_noHash {s : String} (h : '#' ∉ s.data) : seriesKeyOf s = s := by
  unfold seriesKeyOf
  rw [pySplit1_noHash h]
  rfl

theorem seriesKeyOf_hash (a t : String) (h : '#' ∉ a.data) :
    seriesKeyOf (a ++ "#" ++ t) = a := by
  unfold seriesKeyOf
  rw [pySplit1_hash a t h]
  rfl

theorem tailAfter_hash (a t : String) (h : '#' ∉ a.data) :
    tailAfter (a ++ "#" ++ t) = t := by
  unfold tailAfter
  rw [pySplit1_hash a t h]
  rfl

theorem pySplit1_get1 {f : String} (h : '#' ∈ f.data) :
    (pySplit1 f).get? 1 = some (tailAfter f) := by
  obtain ⟨p, hp⟩ := splitFirst_isSome_of_mem h
  unfold tailAfter pySplit1
  rw [hp]
  rfl

theorem pySplit1_get1_noHash {f : String} (h : '#' ∉ f.data) :
    (pySplit1 f).get? 1 = none := by
  rw [pySplit1_noHash h]
  rfl

/-! ## Grouping lemmas -/

theorem lookup_cons_eq {β : Type} (a b : String) (v : β) (l : List (String × β)) :
    List.lookup a ((b, v) :: l) = if a = b then some v else List.lookup a l := by
  by_cases h : a = b
  · simp [List.lookup, h]
  · have hb : (a == b) = false := beq_eq_false_iff_ne.mpr h
    simp [List.lookup, hb, h]

theorem lookup_assocAppend (acc : List (String × List String)) (k v k' : String) :
    (assocAppend acc k v).lookup k' =
      if k' = k then some (((acc.lookup k).getD []) ++ [v]) else acc.lookup k' := by
  induction acc with
  | nil =>
      by_cases h : k' = k <;> simp [assocAppend, lookup_cons_eq, h]
  | cons p rest ih =>
      obtain ⟨k0, vs⟩ := p
      by_cases h0 : k0 = k
      · subst h0
        rw [show assocAppend ((k0, vs) :: rest) k0 v = (k0, vs ++ [v]) :: rest by
              simp [assocAppend]]
        by_cases h : k' = k0
        · subst h
          simp [lookup_cons_eq]
        · simp [lookup_cons_eq, h]
      · rw [show assocAppend ((k0, vs) :: rest) k v = (k0, vs) :: assocAppend rest k v by
              simp [assocAppend, h0]]
        by_cases h : k' = k0
        · subst h
          simp [lookup_cons_eq, h0, ih]
        · by_cases h2 : k' = k
          · have hk0 : ¬k = k0 := fun hh => h0 hh.symm
            have ih2 := ih
            rw [h2] at ih2
            rw [lookup_cons_eq, if_neg h, if_pos h2, lookup_cons_eq, if_neg hk0]
            rw [h2, ih2, if_pos rfl]
          · simp [lookup_cons_eq, h, h2, ih]

theorem keys_assocAppend_mem {acc : List (String × List String)} {k : String} (v : String)
    (h : k ∈ acc.map Prod.fst) :
    (assocAppend acc k v).map Prod.fst = acc.map Prod.fst := by
  induction acc with
  | nil => cases h
  | cons p rest ih =>
      obtain ⟨k0, vs⟩ := p
      by_cases h0 : k0 = k
      · subst h0
        simp [assocAppend]
      · have hm : k ∈ rest.map Prod.fst := by
          simp only [List.map_cons, List.mem_cons] at h
          cases h with
          | inl h1 => exact absurd h1.symm h0
          | inr h2 => exact h2
        simp [assocAppend, h0, ih hm]

theorem keys_assocAppend_not_mem {acc : List (String × List String)} {k : String} (v : String)
    (h : k ∉ acc.map Prod.fst) :
    (assocAppend acc k v).map Prod.fst = acc.map Prod.fst ++ [k] := by
  induction acc with
  | nil => simp [assocAppend]
  | cons p rest ih =>
      obtain ⟨k0, vs⟩ := p
      simp only [List.map_cons, List.mem_cons, not_or] at h
      have h0 : ¬k0 = k := fun hk => h.1 hk.symm
      simp [assocAppend, h0, ih h.2]

theorem nodup_keys_assocAppend {acc : List (String × List String)} {k v : String}
    (h : (acc.map Prod.fst).Nodup) : ((assocAppend acc k v).map Prod.fst).Nodup := by
  by_cases hm : k ∈ acc.map Prod.fst
  · rw [keys_assocAppend_mem v hm]; exact h
  · rw [keys_assocAppend_not_mem v hm]
    simp [List.nodup_append, h, hm]

theorem vals_assocAppend {acc : List (String × List String)} {k v : String}
    (h : ∀ p ∈ acc, p.2 ≠ []) : ∀ p ∈ assocAppend acc k v, p.2 ≠ [] := by
  induction acc with
  | nil => simp [assocAppend]
  | cons q rest ih =>
      obtain ⟨k0, vs⟩ := q
      by_cases h0 : k0 = k
      · subst h0
        intro p hp
        rw [show assocAppend ((k0, vs) :: rest) k0 v = (k0, vs ++ [v]) :: rest by
              simp [assocAppend]] at hp
        cases List.mem_cons.mp hp with
        | inl h1 => subst h1; simp
        | inr h2 => exact h (_) (List.mem_cons_of_mem _ h2)
      · intro p hp
        rw [show assocAppend ((k0, vs) :: rest) k v = (k0, vs) :: assocAppend rest k v by
              simp [assocAppend, h0]] at hp
        cases List.mem_cons.mp hp with
        | inl h1 => subst h1; exact h (k0, vs) (List.mem_cons_self _ _)
        | inr h2 => exact ih (fun q hq => h q (List.mem_cons_of_mem _ hq)) p h2

theorem groupFiles_cons (e : DirEntry) (rest : List DirEntry) (k : String) :
    groupFiles (e :: rest) k =
      if matchesDcm e && (seriesKeyOf e.name == k) then e.name :: groupFiles rest k
      else groupFiles rest k := by
  by_cases h : matchesDcm e && (seriesKeyOf e.name == k) <;> simp [groupFiles, h]

theorem foldl_groupStep_lookup (listing : List DirEntry) :
    ∀ (acc : List (String × List String)) (k : String),
    (listing.foldl groupStep acc).lookup k =
      (match acc.lookup k with
       | some fs => some (fs ++ groupFiles listing k)
       | none =>
           if groupFiles listing k = [] then none else some (groupFiles listing k)) := by
  induction listing with
  | nil =>
      intro acc k
      cases h : acc.lookup k <;> simp [groupFiles, h]
  | cons e rest ih =>
      intro acc k
      rw [List.foldl_cons]
      by_cases hm : matchesDcm e
      · by_cases hk : seriesKeyOf e.name = k
        · have hstep : groupStep acc e = assocAppend acc k e.name := by
            simp [groupStep, hm, hk]
          rw [hstep, ih, lookup_assocAppend, if_pos rfl, groupFiles_cons]
          have hcond : (matchesDcm e && (seriesKeyOf e.name == k)) = true := by
            simp [hm, hk]
          rw [hcond]
          cases h : acc.lookup k <;> simp
        · have hstep : groupStep acc e = assocAppend acc (seriesKeyOf e.name) e.name := by
            simp [groupStep, hm]
          rw [hstep, ih, lookup_assocAppend, if_neg (fun hh => hk hh.symm), groupFiles_cons]
          have hcond : (matchesDcm e && (seriesKeyOf e.name == k)) = false := by
            simp [hm, hk]
          rw [hcond]
          simp
      · have hstep : groupStep acc e = acc := by simp [groupStep, hm]
        rw [hstep, ih, groupFiles_cons]
        have hcond : (matchesDcm e && (seriesKeyOf e.name == k)) = false := by
          simp [hm]
        rw [hcond]
        simp

theorem groupSeries_lookup (listing : List DirEntry) (k : String) :
    (groupSeries listing).lookup k =
      (if groupFiles listing k = [] then none else some (groupFiles listing k)) := by
  rw [groupSeries, foldl_groupStep_lookup listing [] k]
  rfl

theorem foldl_groupStep_nodup (listing : List DirEntry) :
    ∀ acc, (acc.map Prod.fst).Nodup →
      ((listing.foldl groupStep acc).map Prod.fst).Nodup := by
  induction listing with
  | nil => intro acc h; exact h
  | cons e rest ih =>
      intro acc h
      rw [List.foldl_cons]
      apply ih
      by_cases hm : matchesDcm e
      · rw [show groupStep acc e = assocAppend acc (seriesKeyOf e.name) e.name by
              simp [groupStep, hm]]
        exact nodup_keys_assocAppend h
      · rw [show groupStep acc e = acc by simp [groupStep, hm]]
        exact h

theorem groupSeries_keys_nodup (listing : List DirEntry) :
    ((groupSeries listing).map Prod.fst).Nodup :=
  foldl_groupStep_nodup listing [] List.nodup_nil

theorem foldl_groupStep_vals (listing : List DirEntry) :
    ∀ acc, (∀ p ∈ acc, p.2 ≠ []) →
      ∀ p ∈ listing.foldl groupStep acc, p.2 ≠ [] := by
  induction listing with
  | nil => intro acc h; exact h
  | cons e rest ih =>
      intro acc h
      rw [List.foldl_cons]
      apply ih
      by_cases hm : matchesDcm e
      · rw [show groupStep acc e = assocAppend acc (seriesKeyOf e.name) e.name by
              simp [groupStep, hm]]
        exact vals_assocAppend h
      · rw [show groupStep acc e = acc by simp [groupStep, hm]]
        exact h

theorem groupSeries_vals_ne_nil (listing : List DirEntry) :
    ∀ p ∈ groupSeries listing, p.2 ≠ [] :=
  foldl_groupStep_vals listing [] (by simp)

theorem mem_groupFiles_key {listing : List DirEntry} {k n : String}
    (h : n ∈ groupFiles listing k) : seriesKeyOf n = k := by
  unfold groupFiles at h
  obtain ⟨e, he, hn⟩ := List.mem_map.mp h
  have := List.of_mem_filter he
  simp only [Bool.and_eq_true, beq_iff_eq] at this
  rw [← hn]
  exact this.2

theorem lookup_of_mem_of_nodup {β : Type} {l : List (String × β)}
    (hn : (l.map Prod.fst).Nodup) {p : String × β} (hp : p ∈ l) :
    l.lookup p.1 = some p.2 := by
  induction l with
  | nil => cases hp
  | cons q rest ih =>
      obtain ⟨k0, v0⟩ := q
      rw [lookup_cons_eq]
      cases List.mem_cons.mp hp with
      | inl h1 =>
          subst h1
          rw [if_pos rfl]
      | inr h2 =>
          have hne : ¬p.1 = k0 := by
            intro hh
            have : k0 ∈ rest.map Prod.fst := by
              rw [← hh]
              exact List.mem_map.mpr ⟨p, h2, rfl⟩
            exact (List.nodup_cons.mp hn).1 this
          rw [if_neg hne]
          exact ih (List.nodup_cons.mp hn).2 h2

theorem mem_groupSeries_eq_groupFiles {listing : List DirEntry}
    {p : String × List String} (hp : p ∈ groupSeries listing) :
    p.2 = groupFiles listing p.1 := by
  have h1 := lookup_of_mem_of_nodup (groupSeries_keys_nodup listing) hp
  rw [groupSeries_lookup] at h1
  by_cases h : groupFiles listing p.1 = []
  · rw [if_pos h] at h1
    cases h1
  · rw [if_neg h] at h1
    exact (Option.some_inj.mp h1).symm

/-- C6: the grouping step partitions exactly the non-directory entries whose
name ends in `.dcm` into groups keyed by the substring before the first `#`.
For every key, the group is precisely the admitted matching names in
discovery order (`groupFiles` is `filter` + `map` over the listing); every
admitted entry lands in the group of its key; group keys are distinct, every
member of a group carries that group's key as its own series key (so no
filename can belong to two groups), and no group is empty—non-matching
entries and directories contribute nothing anywhere. -/
theorem C6_series_grouping (listing : List DirEntry) :
    ((groupSeries listing).map Prod.fst).Nodup ∧
    (∀ k, (groupSeries listing).lookup k =
      (if groupFiles listing k = [] then none else some (groupFiles listing k))) ∧
    (∀ e ∈ listing, matchesDcm e →
      ∃ fs, (groupSeries listing).lookup (seriesKeyOf e.name) = some fs ∧ e.name ∈ fs) ∧
    (∀ p ∈ groupSeries listing,
      p.2 = groupFiles listing p.1 ∧ p.2 ≠ [] ∧ ∀ n ∈ p.2, seriesKeyOf n = p.1) := by
  refine ⟨groupSeries_keys_nodup listing, groupSeries_lookup listing, ?_, ?_⟩
  · intro e he hm
    have hmem : e.name ∈ groupFiles listing (seriesKeyOf e.name) := by
      unfold groupFiles
      refine List.mem_map.mpr ⟨e, ?_, rfl⟩
      refine List.mem_filter.mpr ⟨he, ?_⟩
      simp [hm]
    refine ⟨groupFiles listing (seriesKeyOf e.name), ?_, hmem⟩
    rw [groupSeries_lookup]
    rw [if_neg (fun hnil => by rw [hnil] at hmem; cases hmem)]
  · intro p hp
    refine ⟨mem_groupSeries_eq_groupFiles hp, groupSeries_vals_ne_nil listing p hp, ?_⟩
    intro n hn
    exact mem_groupFiles_key (mem_groupSeries_eq_groupFiles hp ▸ hn)

/-- C2: with valid arguments and existing folders, a missing task descriptor
and an unparsable one each make the run print the task-file error and exit
with status 1 before any file is processed (no output is produced); a
descriptor that parses as the empty JSON object is accepted and the run
proceeds into the processing stage with the built-in default settings. -/
theorem C2_descriptor_error_handling (kern : Int → List Rat) (uidf : Nat → String)
    (w : World) (a b c : String) (hargv : w.argv = [a, b, c])
    (hb : w.pathExists b = true) (hc : w.pathExists c = true) :
    (w.task = .missing →
      mainRun kern uidf w =
        .exited 1 [greetingLine, "Error: Task file task.json not found"] []) ∧
    (w.task = .unparsable →
      mainRun kern uidf w =
        .exited 1 [greetingLine, "Error: Task file task.json not found"] []) ∧
    (w.task = .parsed (.obj []) →
      mainRun kern uidf w = runAfterSettings kern uidf w defaultSettings [greetingLine]) := by
  refine ⟨?_, ?_, ?_⟩ <;> intro ht <;>
    simp [mainRun, hargv, ht, hb, hc, loadSettings, pyGet, truthy, List.lookup]

/-- Witness for C2 at a concrete environment: all three descriptor cases. -/
theorem C2_descriptor_error_handling_witness :
    (mainRun fixtureKern fixtureUid
        (fixtureWorld .missing [] (fun _ => none)) =
      .exited 1 [greetingLine, "Error: Task file task.json not found"] []) ∧
    (mainRun fixtureKern fixtureUid
        (fixtureWorld .unparsable [] (fun _ => none)) =
      .exited 1 [greetingLine, "Error: Task file task.json not found"] []) ∧
    (mainRun fixtureKern fixtureUid
        (fixtureWorld (.parsed (.obj [])) [] (fun _ => none)) =
      runAfterSettings fixtureKern fixtureUid
        (fixtureWorld (.parsed (.obj [])) [] (fun _ => none)) defaultSettings [greetingLine]) :=
  ⟨(C2_descriptor_error_handling fixtureKern fixtureUid _ "testmodule" "in" "out" rfl rfl rfl).1 rfl,
   (C2_descriptor_error_handling fixtureKern fixtureUid _ "testmodule" "in" "out" rfl rfl rfl).2.1 rfl,
   (C2_descriptor_error_handling fixtureKern fixtureUid _ "testmodule" "in" "out" rfl rfl rfl).2.2 rfl⟩

/-- C4: settings precedence. A descriptor with `process.settings.sigma = 3`
and no `series_offset` yields sigma 3 together with the default offset 3000;
a descriptor with no override keys yields both built-in defaults (sigma 7,
series offset 3000—the variant in this source). Settings are computed once,
before any group is processed, and the same dict is handed to the whole
processing stage. -/
theorem C4_settings_precedence (kern : Int → List Rat) (uidf : Nat → String)
    (w : World) (a b c : String) (tj : Json) (st : List (String × Json))
    (hargv : w.argv = [a, b, c]) (hb : w.pathExists b = true)
    (hc : w.pathExists c = true) (ht : w.task = .parsed tj)
    (hst : loadSettings tj = .ok st) :
    loadSettings
        (.obj [(("process"), .obj [(("settings"), .obj [(("sigma"), Json.num 3)])])]) =
      .ok [(("sigma"), Json.num 3), (("series_offset"), Json.num 3000)] ∧
    loadSettings (.obj []) = .ok defaultSettings ∧
    defaultSettings.lookup ("sigma") = some (Json.num 7) ∧
    defaultSettings.lookup ("series_offset") = some (Json.num 3000) ∧
    mainRun kern uidf w = runAfterSettings kern uidf w st [greetingLine] := by
  refine ⟨rfl, rfl, rfl, rfl, ?_⟩
  simp [mainRun, hargv, ht, hb, hc, hst]

/-- Witness for C4 at a concrete environment (empty-object descriptor). -/
theorem C4_settings_precedence_witness :
    loadSettings
        (.obj [(("process"), .obj [(("settings"), .obj [(("sigma"), Json.num 3)])])]) =
      .ok [(("sigma"), Json.num 3), (("series_offset"), Json.num 3000)] ∧
    loadSettings (.obj []) = .ok defaultSettings ∧
    defaultSettings.lookup ("sigma") = some (Json.num 7) ∧
    defaultSettings.lookup ("series_offset") = some (Json.num 3000) ∧
    mainRun fixtureKern fixtureUid
        (fixtureWorld (.parsed (.obj [])) [] (fun _ => none)) =
      runAfterSettings fixtureKern fixtureUid
        (fixtureWorld (.parsed (.obj [])) [] (fun _ => none)) defaultSettings [greetingLine] :=
  C4_settings_precedence fixtureKern fixtureUid _ "testmodule" "in" "out" (.obj [])
    defaultSettings rfl rfl rfl rfl rfl

/-- C9 counterexample: the descriptor `{"process": 1}` parses as JSON and
lacks the expected nested shape, yet settings loading does NOT treat it as
"no overrides"—`task["process"].get` on a non-dict raises, and the run
crashes instead of proceeding with defaults. -/
theorem C9_counterexample :
    loadSettings (.obj [(("process"), Json.num 1)]) = .error ("AttributeError") ∧
    mainRun fixtureKern fixtureUid
        (fixtureWorld (.parsed (.obj [(("process"), Json.num 1)])) [] (fun _ => none)) =
      .crashed ("AttributeError") [greetingLine] [] :=
  ⟨rfl, rfl⟩

/-- C9 amended: settings loading is permissive only for shape mismatches the
dict operations tolerate. A descriptor object with no `process` key, a falsy
`process` value, or a `process` object without a `settings` key is silently
treated as "no overrides"; a `process` object whose `settings` is an object
merges it over the defaults (unknown keys are carried along but never read);
but a truthy non-dict `process` value (e.g. a non-zero number) raises an
uncaught `AttributeError` instead of falling back to defaults. -/
theorem C9_permissive_settings_amended (kvs pkvs skvs : List (String × Json))
    (p : Json) (n : Int) :
    (kvs.lookup ("process") = none → loadSettings (.obj kvs) = .ok defaultSettings) ∧
    (kvs.lookup ("process") = some p → truthy p = false →
      loadSettings (.obj kvs) = .ok defaultSettings) ∧
    (kvs.lookup ("process") = some (.obj pkvs) → pkvs.lookup ("settings") = none →
      loadSettings (.obj kvs) = .ok defaultSettings) ∧
    (kvs.lookup ("process") = some (.obj pkvs) →
      pkvs.lookup ("settings") = some (.obj skvs) →
      loadSettings (.obj kvs) =
        .ok (skvs.foldl (fun acc kv => pyDictSet acc kv.1 kv.2) defaultSettings)) ∧
    (kvs.lookup ("process") = some (.num n) → n ≠ 0 →
      loadSettings (.obj kvs) = .error ("AttributeError")) := by
  refine ⟨?_, ?_, ?_, ?_, ?_⟩
  · intro h
    simp [loadSettings, pyGet, h, truthy]
  · intro h1 h2
    simp [loadSettings, pyGet, h1, h2]
  · intro h1 h2
    by_cases htr : truthy (.obj pkvs)
    · simp [loadSettings, pyGet, h1, h2, htr, dictUpdate]
    · simp [loadSettings, pyGet, h1, htr]
  · intro h1 h2
    have hne : pkvs ≠ [] := by
      intro hnil
      rw [hnil] at h2
      cases h2
    have htr : truthy (.obj pkvs) = true := by
      simp [truthy, hne]
    simp [loadSettings, pyGet, h1, h2, htr, dictUpdate]
  · intro h1 h2
    have htr : truthy (.num n) = true := by
      simp [truthy, h2]
    simp [loadSettings, pyGet, h1, htr]

/-- Witness for C9 amended: all five cases at concrete descriptors. -/
theorem C9_permissive_settings_amended_witness :
    loadSettings (.obj []) = .ok defaultSettings ∧
    loadSettings (.obj [(("process"), .obj [])]) = .ok defaultSettings ∧
    loadSettings (.obj [(("process"), .obj [(("other"), Json.num 1)])]) =
      .ok defaultSettings ∧
    loadSettings
        (.obj [(("process"), .obj [(("settings"), .obj [(("sigma"), Json.num 3)])])]) =
      .ok ([(("sigma"), Json.num 3)].foldl
            (fun acc kv => pyDictSet acc kv.1 kv.2) defaultSettings) ∧
    loadSettings (.obj [(("process"), Json.num 1)]) = .error ("AttributeError") :=
  ⟨(C9_permissive_settings_amended [] [] [] .null 0).1 rfl,
   (C9_permissive_settings_amended [(("process"), .obj [])] [] [] (.obj []) 0).2.1 rfl rfl,
   (C9_permissive_settings_amended [(("process"), .obj [(("other"), Json.num 1)])]
      [(("other"), Json.num 1)] [] .null 0).2.2.1 rfl rfl,
   (C9_permissive_settings_amended
      [(("process"), .obj [(("settings"), .obj [(("sigma"), Json.num 3)])])]
      [(("settings"), .obj [(("sigma"), Json.num 3)])]
      [(("sigma"), Json.num 3)] .null 0).2.2.2.1 rfl rfl,
   (C9_permissive_settings_amended [(("process"), Json.num 1)] [] [] .null 1).2.2.2.2 rfl
     (by decide)⟩

/-- C10: a name that ends in `.dcm` but contains no `#` is admitted by the
grouping step as its own series group keyed by the entire filename, but
`process_image` then raises an uncaught IndexError while composing the
output name (`file.split("#", 1)[1]`), before reading or writing anything;
a run over such an input crashes with no output written for that file. -/
theorem C10_no_hash_filename_aborts (f : String)
    (hdcm : strEndsWith (".dcm") f = true) (hnh : '#' ∉ f.data)
    (read : String → Option Dicom) (kern : Int → List Rat) (uidf : Nat → String) :
    groupSeries [⟨("task.json"), false⟩, ⟨f, false⟩] = [(f, [f])] ∧
    (∀ (st : List (String × Json)) (iuid suid : String),
      process_image read st kern iuid f suid = .error ("IndexError")) ∧
    mainRun kern uidf
        (fixtureWorld (.parsed (.obj [])) [⟨("task.json"), false⟩, ⟨f, false⟩] read) =
      .crashed ("IndexError") [greetingLine, "Filter strength: 7"] [] := by
  have hm1 : matchesDcm ⟨("task.json"), false⟩ = false := by decide
  have hm2 : matchesDcm ⟨f, false⟩ = true := by simp [matchesDcm, hdcm]
  have hg : groupSeries [⟨("task.json"), false⟩, ⟨f, false⟩] = [(f, [f])] := by
    unfold groupSeries
    rw [List.foldl_cons, List.foldl_cons, List.foldl_nil]
    rw [show groupStep [] ⟨("task.json"), false⟩ = [] by simp [groupStep, hm1]]
    rw [show groupStep [] ⟨f, false⟩ = [(seriesKeyOf f, [f])] by
          simp [groupStep, hm2, assocAppend]]
    rw [seriesKeyOf_noHash hnh]
  have hpi : ∀ (st : List (String × Json)) (iuid suid : String),
      process_image read st kern iuid f suid = .error ("IndexError") := by
    intro st iuid suid
    simp [process_image, pySplit1_noHash hnh]
  refine ⟨hg, hpi, ?_⟩
  have hlog : ("Filter strength: ") ++ toString (7 : Int) = "Filter strength: 7" := by
    decide
  simp [mainRun, fixtureWorld, loadSettings, pyGet, truthy, List.lookup,
    runAfterSettings, hg, runGroups, processSeries, hpi, pyStr, hlog]

/-- Witness for C10 at the concrete filename `series1.dcm`. -/
theorem C10_no_hash_filename_aborts_witness :
    groupSeries [⟨("task.json"), false⟩, ⟨("series1.dcm"), false⟩] =
      [(("series1.dcm"), [("series1.dcm")])] ∧
    (∀ (st : List (String × Json)) (iuid suid : String),
      process_image (fun _ => some fixtureDicom) st fixtureKern iuid ("series1.dcm") suid =
        .error ("IndexError")) ∧
    mainRun fixtureKern fixtureUid
        (fixtureWorld (.parsed (.obj []))
          [⟨("task.json"), false⟩, ⟨("series1.dcm"), false⟩]
          (fun _ => some fixtureDicom)) =
      .crashed ("IndexError") [greetingLine, "Filter strength: 7"] [] :=
  C10_no_hash_filename_aborts ("series1.dcm") (by decide) (by decide)
    (fun _ => some fixtureDicom) fixtureKern fixtureUid

/-! ## Success characterizations of the two per-file operations -/

theorem process_image_ok (read : String → Option Dicom) (st : List (String × Json))
    (kern : Int → List Rat) (iuid f suid : String) (d : Dicom) (sg off : Int)
    (hread : read f = some d) (hhash : '#' ∈ f.data)
    (hsg : st.lookup ("sigma") = some (Json.num sg))
    (hoff : st.lookup ("series_offset") = some (Json.num off)) :
    process_image read st kern iuid f suid =
      .ok (suid ++ "#" ++ tailAfter f, transformDicom kern suid iuid sg off d) := by
  simp only [process_image, pySplit1_get1 hhash, hread, hsg, hoff]

theorem create_sr_ok (read : String → Option Dicom) (st : List (String × Json))
    (sop impl f suid : String) (ref : Dicom) (off : Int) (sigJ : Json)
    (hread : read f = some ref)
    (hoff : st.lookup ("series_offset") = some (Json.num off))
    (hsg : st.lookup ("sigma") = some sigJ) :
    ∃ sr, create_sr read st sop impl f suid = .ok (suid ++ "#" ++ sop ++ ".dcm", sr) ∧
      sr.SOPClassUID = "1.2.840.10008.5.1.4.1.1.88.11" ∧
      sr.SOPInstanceUID = sop ∧
      sr.SeriesInstanceUID = suid ∧
      sr.StudyInstanceUID = ref.StudyInstanceUID ∧
      sr.SeriesNumber = ref.SeriesNumber + off ∧
      sr.Modality = "SR" ∧
      sr.Manufacturer = "Mercure Test Module" ∧
      sr.PatientName = ref.PatientName ∧
      sr.PatientID = ref.PatientID ∧
      sr.StudyDate = ref.StudyDate ∧
      sr.StudyTime = ref.StudyTime ∧
      sr.AccessionNumber = ref.AccessionNumber ∧
      sr.ProcessingDescriptionText =
        "Image processed with Gaussian filter (sigma=" ++ pyStr sigJ ++ ")" ∧
      sr.EvidenceStudyInstanceUID = ref.StudyInstanceUID ∧
      sr.EvidenceSeriesInstanceUID = ref.SeriesInstanceUID ∧
      sr.EvidenceSOPClassUID = ref.SOPClassUID ∧
      sr.EvidenceSOPInstanceUID = ref.SOPInstanceUID ∧
      sr.MediaStorageSOPInstanceUID = sop ∧
      sr.ImplementationClassUID = impl ∧
      sr.PixelData = none := by
  simp only [create_sr, hread, hoff, hsg]
  exact ⟨_, rfl, rfl, rfl, rfl, rfl, rfl, rfl, rfl, rfl, rfl, rfl, rfl, rfl, rfl,
    rfl, rfl, rfl, rfl, rfl, rfl, rfl⟩

/-- C5: the series-number attribute of every transformed slice equals the
series number of the freshly read input file plus the active
`series_offset`, added exactly once (line 210); likewise the report document
carries the reference image's series number plus the same offset, added
exactly once (line 53). Neither operation rereads its own output, so offsets
never compound. -/
theorem C5_series_number_offset (read : String → Option Dicom)
    (st : List (String × Json)) (kern : Int → List Rat)
    (iuid sop impl f g suid suid2 : String) (d ref : Dicom) (sg off : Int)
    (hread : read f = some d) (hhash : '#' ∈ f.data)
    (hsg : st.lookup ("sigma") = some (Json.num sg))
    (hoff : st.lookup ("series_offset") = some (Json.num off))
    (hread2 : read g = some ref) :
    (∃ out, process_image read st kern iuid f suid =
        .ok (suid ++ "#" ++ tailAfter f, out) ∧
      out.SeriesNumber = d.SeriesNumber + off) ∧
    (∃ sr, create_sr read st sop impl g suid2 =
        .ok (suid2 ++ "#" ++ sop ++ ".dcm", sr) ∧
      sr.SeriesNumber = ref.SeriesNumber + off) := by
  constructor
  · exact ⟨_, process_image_ok read st kern iuid f suid d sg off hread hhash hsg hoff, rfl⟩
  · obtain ⟨sr, heq, hrest⟩ :=
      create_sr_ok read st sop impl g suid2 ref off (Json.num sg) hread2 hoff hsg
    exact ⟨sr, heq, hrest.2.2.2.2.1⟩

/-- Witness for C5 at concrete inputs (defaults: offset 3000, input series
number 5). -/
theorem C5_series_number_offset_witness :
    (∃ out, process_image (fun _ => some fixtureDicom) defaultSettings fixtureKern
        ("U1") ("A#1.dcm") ("U0") =
        .ok (("U0") ++ "#" ++ tailAfter ("A#1.dcm"), out) ∧
      out.SeriesNumber = fixtureDicom.SeriesNumber + 3000) ∧
    (∃ sr, create_sr (fun _ => some fixtureDicom) defaultSettings ("U3") ("U4")
        ("A#1.dcm") ("U2") =
        .ok (("U2") ++ "#" ++ ("U3") ++ ".dcm", sr) ∧
      sr.SeriesNumber = fixtureDicom.SeriesNumber + 3000) :=
  C5_series_number_offset (fun _ => some fixtureDicom) defaultSettings fixtureKern
    ("U1") ("U3") ("U4") ("A#1.dcm") ("A#1.dcm") ("U0") ("U2") fixtureDicom fixtureDicom
    7 3000 rfl (by decide) rfl rfl rfl

/-! ## Shape lemmas for the pixel filter -/

theorem mapGrid_length (r c : Nat) (f : Nat → Nat → Int) :
    (mapGrid r c f).length = r := by
  simp [mapGrid]

theorem mapGrid_row_length {r c : Nat} {f : Nat → Nat → Int} {row : List Int}
    (h : row ∈ mapGrid r c f) : row.length = c := by
  obtain ⟨i, _, hrow⟩ := List.mem_map.mp h
  rw [← hrow]
  simp

theorem numCols_mapGrid (r c : Nat) (f : Nat → Nat → Int) :
    numCols (mapGrid r c f) = if r = 0 then 0 else c := by
  cases r with
  | zero => simp [mapGrid, numCols]
  | succ n => simp [mapGrid, numCols, List.range_succ_eq_map]

theorem gaussian_filter_shape (kern : Int → List Rat) (sigma : Int)
    (img : List (List Int)) (hrect : Rectangular img) :
    (gaussian_filter kern sigma img).length = img.length ∧
    ∀ row ∈ gaussian_filter kern sigma img, row.length = numCols img := by
  by_cases h1 : 1 ≤ sigma
  · unfold gaussian_filter
    rw [if_pos h1]
    unfold filterAxis1 filterAxis0
    constructor
    · rw [mapGrid_length, mapGrid_length]
    · intro row hrow
      have hc := mapGrid_row_length hrow
      rw [hc, numCols_mapGrid]
      by_cases himg : img.length = 0
      · obtain rfl := List.length_eq_zero.mp himg
        simp [numCols]
      · simp [himg]
  · unfold gaussian_filter
    rw [if_neg h1]
    exact ⟨rfl, hrect⟩

/-- C7: for every readable input slice and every sigma at least 0, the
transform succeeds and its output keeps the sample datatype and the pixel
grid dimensions of the source; with sigma = 0 the smoothing step leaves the
pixel content untouched (scipy skips every axis whose sigma is not above
its 1e-15 threshold). -/
theorem C7_pixel_shape_dtype (read : String → Option Dicom)
    (st : List (String × Json)) (kern : Int → List Rat) (iuid f suid : String)
    (d : Dicom) (sg off : Int)
    (hread : read f = some d) (hhash : '#' ∈ f.data)
    (hsg : st.lookup ("sigma") = some (Json.num sg))
    (hoff : st.lookup ("series_offset") = some (Json.num off))
    (hrect : Rectangular d.pixels) (hpos : 0 ≤ sg) :
    ∃ out, process_image read st kern iuid f suid =
        .ok (suid ++ "#" ++ tailAfter f, out) ∧
      out.dtype = d.dtype ∧
      out.pixels.length = d.pixels.length ∧
      (∀ row ∈ out.pixels, row.length = numCols d.pixels) ∧
      (sg = 0 → out.pixels = d.pixels) := by
  refine ⟨_, process_image_ok read st kern iuid f suid d sg off hread hhash hsg hoff,
    rfl, ?_, ?_, ?_⟩
  · exact (gaussian_filter_shape kern sg d.pixels hrect).1
  · exact (gaussian_filter_shape kern sg d.pixels hrect).2
  · intro h0
    subst h0
    show gaussian_filter kern 0 d.pixels = d.pixels
    unfold gaussian_filter
    rw [if_neg (by decide)]

/-- Witness for C7 at a concrete 2x2 slice with sigma 0. -/
theorem C7_pixel_shape_dtype_witness :
    ∃ out, process_image (fun _ => some fixtureDicom)
        [(("sigma"), Json.num 0), (("series_offset"), Json.num 3000)]
        fixtureKern ("U1") ("A#1.dcm") ("U0") =
        .ok (("U0") ++ "#" ++ tailAfter ("A#1.dcm"), out) ∧
      out.dtype = fixtureDicom.dtype ∧
      out.pixels.length = fixtureDicom.pixels.length ∧
      (∀ row ∈ out.pixels, row.length = numCols fixtureDicom.pixels) ∧
      ((0 : Int) = 0 → out.pixels = fixtureDicom.pixels) :=
  C7_pixel_shape_dtype (fun _ => some fixtureDicom)
    [(("sigma"), Json.num 0), (("series_offset"), Json.num 3000)]
    fixtureKern ("U1") ("A#1.dcm") ("U0") fixtureDicom 0 3000
    rfl (by decide) rfl rfl (by decide) (by decide)

/-- C8: for a readable reference image, the report synthesis returns exactly
one new document that carries the freshly generated SOP instance identifier,
the supplied report series identifier, the study identifier and the
patient/study demographic fields copied from the reference, the fixed
modality code `SR` and the fixed manufacturer string, a free-text node
naming the Gaussian filter and the sigma value used, and an evidence
back-reference with the reference instance's study, series and instance
identifiers and its SOP class—and no pixel data at all. -/
theorem C8_report_content (read : String → Option Dicom) (st : List (String × Json))
    (sop impl f suid : String) (ref : Dicom) (off : Int) (sigJ : Json)
    (hread : read f = some ref)
    (hoff : st.lookup ("series_offset") = some (Json.num off))
    (hsg : st.lookup ("sigma") = some sigJ) :
    ∃ sr, create_sr read st sop impl f suid = .ok (suid ++ "#" ++ sop ++ ".dcm", sr) ∧
      sr.SOPInstanceUID = sop ∧
      sr.MediaStorageSOPInstanceUID = sop ∧
      sr.SeriesInstanceUID = suid ∧
      sr.StudyInstanceUID = ref.StudyInstanceUID ∧
      sr.PatientName = ref.PatientName ∧
      sr.PatientID = ref.PatientID ∧
      sr.StudyDate = ref.StudyDate ∧
      sr.StudyTime = ref.StudyTime ∧
      sr.AccessionNumber = ref.AccessionNumber ∧
      sr.Modality = "SR" ∧
      sr.Manufacturer = "Mercure Test Module" ∧
      sr.ProcessingDescriptionText =
        "Image processed with Gaussian filter (sigma=" ++ pyStr sigJ ++ ")" ∧
      sr.EvidenceStudyInstanceUID = ref.StudyInstanceUID ∧
      sr.EvidenceSeriesInstanceUID = ref.SeriesInstanceUID ∧
      sr.EvidenceSOPInstanceUID = ref.SOPInstanceUID ∧
      sr.EvidenceSOPClassUID = ref.SOPClassUID ∧
      sr.PixelData = none := by
  obtain ⟨sr, heq, h⟩ := create_sr_ok read st sop impl f suid ref off sigJ hread hoff hsg
  exact ⟨sr, heq, h.2.1, h.2.2.2.2.2.2.2.2.2.2.2.2.2.2.2.2.2.1, h.2.2.1, h.2.2.2.1,
    h.2.2.2.2.2.2.2.1, h.2.2.2.2.2.2.2.2.1, h.2.2.2.2.2.2.2.2.2.1,
    h.2.2.2.2.2.2.2.2.2.2.1, h.2.2.2.2.2.2.2.2.2.2.2.1,
    h.2.2.2.2.2.1, h.2.2.2.2.2.2.1,
    h.2.2.2.2.2.2.2.2.2.2.2.2.1, h.2.2.2.2.2.2.2.2.2.2.2.2.2.1,
    h.2.2.2.2.2.2.2.2.2.2.2.2.2.2.1, h.2.2.2.2.2.2.2.2.2.2.2.2.2.2.2.2.1,
    h.2.2.2.2.2.2.2.2.2.2.2.2.2.2.2.1, h.2.2.2.2.2.2.2.2.2.2.2.2.2.2.2.2.2.2.2⟩

/-- Witness for C8 at a concrete reference image. -/
theorem C8_report_content_witness :
    ∃ sr, create_sr (fun _ => some fixtureDicom) defaultSettings ("U3") ("U4")
        ("A#1.dcm") ("U2") = .ok (("U2") ++ "#" ++ ("U3") ++ ".dcm", sr) ∧
      sr.SOPInstanceUID = "U3" ∧
      sr.MediaStorageSOPInstanceUID = "U3" ∧
      sr.SeriesInstanceUID = "U2" ∧
      sr.StudyInstanceUID = fixtureDicom.StudyInstanceUID ∧
      sr.PatientName = fixtureDicom.PatientName ∧
      sr.PatientID = fixtureDicom.PatientID ∧
      sr.StudyDate = fixtureDicom.StudyDate ∧
      sr.StudyTime = fixtureDicom.StudyTime ∧
      sr.AccessionNumber = fixtureDicom.AccessionNumber ∧
      sr.Modality = "SR" ∧
      sr.Manufacturer = "Mercure Test Module" ∧
      sr.ProcessingDescriptionText =
        "Image processed with Gaussian filter (sigma=" ++ pyStr (Json.num 7) ++ ")" ∧
      sr.EvidenceStudyInstanceUID = fixtureDicom.StudyInstanceUID ∧
      sr.EvidenceSeriesInstanceUID = fixtureDicom.SeriesInstanceUID ∧
      sr.EvidenceSOPInstanceUID = fixtureDicom.SOPInstanceUID ∧
      sr.EvidenceSOPClassUID = fixtureDicom.SOPClassUID ∧
      sr.PixelData = none :=
  C8_report_content (fun _ => some fixtureDicom) defaultSettings ("U3") ("U4")
    ("A#1.dcm") ("U2") fixtureDicom 3000 (Json.num 7) rfl rfl rfl

/-! ## Run-level characterization of the series loop -/

theorem processSeries_ok (read : String → Option Dicom) (st : List (String × Json))
    (kern : Int → List Rat) (uidf : Nat → String) (suid : String) (sg off : Int)
    (hsg : st.lookup ("sigma") = some (Json.num sg))
    (hoff : st.lookup ("series_offset") = some (Json.num off))
    (files : List String) :
    (∀ f ∈ files, '#' ∈ f.data ∧ (read f).isSome) →
    ∀ (c : Nat) (outs : List (String × OutFile)),
    ∃ newOuts,
      processSeries read st kern uidf suid files c outs =
        .ok (c + files.length, outs ++ newOuts) ∧
      newOuts.map Prod.fst = files.map (fun f => suid ++ "#" ++ tailAfter f) ∧
      newOuts.map (fun p => p.2.isImage) = List.replicate files.length true ∧
      (∀ p ∈ newOuts, ∃ f d, f ∈ files ∧ read f = some d ∧
        outSeriesNumber p.2 = d.SeriesNumber + off) := by
  induction files with
  | nil =>
      intro _ c outs
      exact ⟨[], by simp [processSeries], by simp, by simp, by simp⟩
  | cons f fs ih =>
      intro h c outs
      obtain ⟨hhash, hread⟩ := h f (List.mem_cons_self f fs)
      obtain ⟨d, hd⟩ := Option.isSome_iff_exists.mp hread
      have hpi := process_image_ok read st kern (uidf c) f suid d sg off hd hhash hsg hoff
      obtain ⟨newOuts, heq, hnames, hflags, hsn⟩ :=
        ih (fun g hg => h g (List.mem_cons_of_mem f hg)) (c + 1)
          (outs ++ [(suid ++ "#" ++ tailAfter f,
            .image (transformDicom kern suid (uidf c) sg off d))])
      refine ⟨(suid ++ "#" ++ tailAfter f,
          .image (transformDicom kern suid (uidf c) sg off d)) :: newOuts, ?_, ?_, ?_, ?_⟩
      · simp only [processSeries]
        rw [hpi]
        show processSeries read st kern uidf suid fs (c + 1)
            (outs ++ [(suid ++ "#" ++ tailAfter f,
              OutFile.image (transformDicom kern suid (uidf c) sg off d))]) =
          Except.ok (c + (f :: fs).length,
            outs ++ (suid ++ "#" ++ tailAfter f,
              OutFile.image (transformDicom kern suid (uidf c) sg off d)) :: newOuts)
        rw [heq]
        have hlen : c + 1 + fs.length = c + (f :: fs).length := by
          simp only [List.length_cons]
          omega
        rw [hlen]
        simp
      · simp [hnames]
      · simp only [List.map_cons, hflags, List.length_cons, List.replicate_succ]
        rfl
      · intro p hp
        cases List.mem_cons.mp hp with
        | inl h1 =>
            subst h1
            exact ⟨f, d, List.mem_cons_self f fs, hd, rfl⟩
        | inr h2 =>
            obtain ⟨g, d2, hg, hd2, hsn2⟩ := hsn p h2
            exact ⟨g, d2, List.mem_cons_of_mem f hg, hd2, hsn2⟩

theorem runGroups_ok (read : String → Option Dicom) (st : List (String × Json))
    (kern : Int → List Rat) (uidf : Nat → String) (log : List String) (sg off : Int)
    (hsg : st.lookup ("sigma") = some (Json.num sg))
    (hoff : st.lookup ("series_offset") = some (Json.num off)) :
    ∀ (grps : List (String × List String)),
    (∀ p ∈ grps, p.2 ≠ [] ∧ ∀ f ∈ p.2, '#' ∈ f.data ∧ (read f).isSome) →
    ∀ (c : Nat) (outs : List (String × OutFile)),
    ∃ newOuts,
      runGroups read st kern uidf log grps c outs = .exited 0 log (outs ++ newOuts) ∧
      newOuts.map Prod.fst = (specNames uidf grps c).flatten ∧
      newOuts.map (fun p => p.2.isImage) =
        (grps.map (fun p => List.replicate p.2.length true ++ [false])).flatten ∧
      (∀ p ∈ newOuts, ∃ d, outSeriesNumber p.2 = d.SeriesNumber + off ∧
        ∃ q ∈ grps, ∃ f ∈ q.2, read f = some d) := by
  intro grps
  induction grps with
  | nil =>
      intro _ c outs
      exact ⟨[], by simp [runGroups], by simp [specNames], by simp, by simp⟩
  | cons kfs rest ih =>
      intro h c outs
      obtain ⟨k, files⟩ := kfs
      obtain ⟨hne, hfiles⟩ := h (k, files) (List.mem_cons_self _ _)
      obtain ⟨f0, fs0, rfl⟩ := List.exists_cons_of_ne_nil hne
      obtain ⟨imgs, hps, hinames, hiflags, hisn⟩ :=
        processSeries_ok read st kern uidf (uidf c) sg off hsg hoff (f0 :: fs0)
          hfiles (c + 1) outs
      obtain ⟨hh0, hr0⟩ := hfiles f0 (List.mem_cons_self _ _)
      obtain ⟨d0, hd0⟩ := Option.isSome_iff_exists.mp hr0
      obtain ⟨sr, hcs, hsrTail⟩ :=
        create_sr_ok read st (uidf (c + 1 + (f0 :: fs0).length + 1))
          (uidf (c + 1 + (f0 :: fs0).length + 2)) f0
          (uidf (c + 1 + (f0 :: fs0).length)) d0 off (Json.num sg) hd0 hoff hsg
      have hsrn : sr.SeriesNumber = d0.SeriesNumber + off := hsrTail.2.2.2.2.1
      obtain ⟨tailOuts, htEq, htNames, htFlags, htSn⟩ :=
        ih (fun q hq => h q (List.mem_cons_of_mem _ hq))
          (c + 1 + (f0 :: fs0).length + 3)
          (outs ++ imgs ++
            [(uidf (c + 1 + (f0 :: fs0).length) ++ "#" ++
                uidf (c + 1 + (f0 :: fs0).length + 1) ++ ".dcm", .report sr)])
      have hc' : c + 1 + (f0 :: fs0).length + 3 = nextC c (f0 :: fs0) := by
        simp only [nextC, List.isEmpty_cons, List.length_cons]
        simp
        omega
      refine ⟨imgs ++
          ((uidf (c + 1 + (f0 :: fs0).length) ++ "#" ++
              uidf (c + 1 + (f0 :: fs0).length + 1) ++ ".dcm", .report sr) :: tailOuts),
        ?_, ?_, ?_, ?_⟩
      · simp only [runGroups, hps, List.isEmpty_cons, Bool.false_eq_true, if_false,
          List.headD_cons, hcs]
        rw [htEq]
        simp [List.append_assoc]
      · simp only [List.map_append, List.map_cons, hinames, htNames, hc']
        simp only [specNames, List.flatten]
        have hblock : specBlock uidf c (f0 :: fs0) =
            (f0 :: fs0).map (fun f => uidf c ++ "#" ++ tailAfter f) ++
              [uidf (c + (f0 :: fs0).length + 1) ++ "#" ++
                uidf (c + (f0 :: fs0).length + 2) ++ ".dcm"] := by
          simp [specBlock]
        rw [hblock]
        have e1 : c + 1 + (f0 :: fs0).length = c + (f0 :: fs0).length + 1 := by omega
        have e2 : c + 1 + (f0 :: fs0).length + 1 = c + (f0 :: fs0).length + 2 := by omega
        rw [e2, e1]
        simp
      · simp only [List.map_append, List.map_cons, hiflags, htFlags]
        simp [OutFile.isImage]
      · intro p hp
        rw [List.mem_append] at hp
        cases hp with
        | inl h1 =>
            obtain ⟨f, d, hf, hd, hsn2⟩ := hisn p h1
            exact ⟨d, hsn2, (k, f0 :: fs0), List.mem_cons_self _ _, f, hf, hd⟩
        | inr h2 =>
            cases List.mem_cons.mp h2 with
            | inl h3 =>
                subst h3
                exact ⟨d0, hsrn, (k, f0 :: fs0), List.mem_cons_self _ _, f0,
                  List.mem_cons_self _ _, hd0⟩
            | inr h4 =>
                obtain ⟨d, hsn2, q, hq, f, hf, hd⟩ := htSn p h4
                exact ⟨d, hsn2, q, List.mem_cons_of_mem _ hq, f, hf, hd⟩

/-- C1 counterexample: without a task descriptor the program does NOT
complete successfully. Both an empty input directory and the three-file
`A#1.dcm, A#2.dcm, B#1.dcm` directory, when `task.json` is absent, make the
run print the task-file error and exit with status 1, producing no output at
all (the claim expects exit status 0, and 5 outputs in the second case). -/
theorem C1_counterexample :
    mainRun fixtureKern fixtureUid (fixtureWorld .missing [] (fun _ => none)) =
      .exited 1 [greetingLine, "Error: Task file task.json not found"] [] ∧
    mainRun fixtureKern fixtureUid
        (fixtureWorld .missing
          [⟨("A#1.dcm"), false⟩, ⟨("A#2.dcm"), false⟩, ⟨("B#1.dcm"), false⟩]
          (fun _ => some fixtureDicom)) =
      .exited 1 [greetingLine, "Error: Task file task.json not found"] [] :=
  ⟨rfl, rfl⟩

/-- C1 amended: with a parseable (empty-object) task descriptor present, the
scenario holds as described: an input directory with no DICOM files yields
zero series groups and a successful exit with no output; a directory with
`A#1.dcm`, `A#2.dcm`, `B#1.dcm` yields the two groups `A` and `B`, and the
run exits 0 after writing exactly 5 files: two transformed slices for group
A (prefix `uidf 0`), one report for A, one transformed slice for B (prefix
`uidf 6`), and one report for B. Without `task.json` the run instead fails
as shown by the counterexample. -/
theorem C1_end_to_end_amended (kern : Int → List Rat) (uidf : Nat → String)
    (d1 d2 d3 : Dicom) :
    (groupSeries [⟨("task.json"), false⟩] = [] ∧
      mainRun kern uidf
          (fixtureWorld (.parsed (.obj [])) [⟨("task.json"), false⟩] (fun _ => none)) =
        .exited 0 [greetingLine, "Filter strength: 7"] []) ∧
    (groupSeries
        [⟨("task.json"), false⟩, ⟨("A#1.dcm"), false⟩, ⟨("A#2.dcm"), false⟩,
         ⟨("B#1.dcm"), false⟩] =
      [(("A"), [("A#1.dcm"), ("A#2.dcm")]), (("B"), [("B#1.dcm")])] ∧
      ∃ outs,
        mainRun kern uidf
            (fixtureWorld (.parsed (.obj []))
              [⟨("task.json"), false⟩, ⟨("A#1.dcm"), false⟩, ⟨("A#2.dcm"), false⟩,
               ⟨("B#1.dcm"), false⟩]
              (fun n =>
                if n = "A#1.dcm" then some d1
                else if n = "A#2.dcm" then some d2
                else if n = "B#1.dcm" then some d3
                else none)) =
          .exited 0 [greetingLine, "Filter strength: 7"] outs ∧
        outs.map Prod.fst =
          [uidf 0 ++ "#" ++ "1.dcm", uidf 0 ++ "#" ++ "2.dcm",
           uidf 3 ++ "#" ++ uidf 4 ++ ".dcm",
           uidf 6 ++ "#" ++ "1.dcm", uidf 8 ++ "#" ++ uidf 9 ++ ".dcm"] ∧
        outs.map (fun p => p.2.isImage) = [true, true, false, true, false]) := by
  have hlog : ("Filter strength: ") ++ toString (7 : Int) = "Filter strength: 7" := by
    decide
  refine ⟨⟨by decide, ?_⟩, by decide, ?_⟩
  · have hg : groupSeries [⟨("task.json"), false⟩] = [] := by decide
    simp [mainRun, fixtureWorld, loadSettings, pyGet, truthy, List.lookup,
      runAfterSettings, hg, runGroups, pyStr, hlog]
  · have hg : groupSeries
        [⟨("task.json"), false⟩, ⟨("A#1.dcm"), false⟩, ⟨("A#2.dcm"), false⟩,
         ⟨("B#1.dcm"), false⟩] =
        [(("A"), [("A#1.dcm"), ("A#2.dcm")]), (("B"), [("B#1.dcm")])] := by decide
    have hgrps : ∀ p ∈ [(("A"), [("A#1.dcm"), ("A#2.dcm")]), (("B"), [("B#1.dcm")])],
        p.2 ≠ [] ∧ ∀ f ∈ p.2, '#' ∈ f.data ∧
          ((fun n =>
              if n = "A#1.dcm" then some d1
              else if n = "A#2.dcm" then some d2
              else if n = "B#1.dcm" then some d3
              else none) f).isSome := by
      intro p hp
      rcases List.mem_cons.mp hp with h1 | h2
      · subst h1
        refine ⟨by simp, ?_⟩
        intro f hf
        rcases List.mem_cons.mp hf with h3 | h4
        · subst h3
          exact ⟨by decide, rfl⟩
        · rcases List.mem_cons.mp h4 with h5 | h6
          · subst h5
            exact ⟨by decide, by simp⟩
          · cases h6
      · rcases List.mem_cons.mp h2 with h3 | h4
        · subst h3
          refine ⟨by simp, ?_⟩
          intro f hf
          rcases List.mem_cons.mp hf with h5 | h6
          · subst h5
            exact ⟨by decide, by simp⟩
          · cases h6
        · cases h4
    obtain ⟨newOuts, hEq, hNames, hFlags, _⟩ :=
      runGroups_ok
        (fun n =>
          if n = "A#1.dcm" then some d1
          else if n = "A#2.dcm" then some d2
          else if n = "B#1.dcm" then some d3
          else none)
        defaultSettings kern uidf [greetingLine, "Filter strength: 7"] 7 3000 rfl rfl
        [(("A"), [("A#1.dcm"), ("A#2.dcm")]), (("B"), [("B#1.dcm")])] hgrps 0 []
    refine ⟨newOuts, ?_, ?_, ?_⟩
    · rw [show ([] : List (String × OutFile)) ++ newOuts = newOuts from by simp] at hEq
      rw [← hEq]
      simp [mainRun, fixtureWorld, loadSettings, pyGet, truthy, List.lookup,
        runAfterSettings, hg, pyStr, hlog]
    · rw [hNames]
      have t1 : tailAfter ("A#1.dcm") = "1.dcm" := by decide
      have t2 : tailAfter ("A#2.dcm") = "2.dcm" := by decide
      have t3 : tailAfter ("B#1.dcm") = "1.dcm" := by decide
      simp [specNames, specBlock, nextC, t1, t2, t3]
    · rw [hFlags]
      decide

/-- C3 counterexample: in a run over the single group `A`, the transformed
slice is written as `U0#1.dcm` but the report of the same per-series-loop
invocation is written as `U2#U3.dcm` (`main` draws a separate fresh series
UID for the SR document on line 288), so the prefix up to the first `#` is
NOT identical across all files written by one invocation. -/
theorem C3_counterexample :
    namesOfRun (mainRun fixtureKern fixtureUid
        (fixtureWorld (.parsed (.obj []))
          [⟨("A#1.dcm"), false⟩, ⟨("task.json"), false⟩]
          (fun _ => some fixtureDicom))) = [("U0#1.dcm"), ("U2#U3.dcm")] ∧
    seriesKeyOf ("U0#1.dcm") = "U0" ∧
    seriesKeyOf ("U2#U3.dcm") = "U2" ∧
    ("U0" : String) ≠ "U2" := by
  refine ⟨?_, by decide, by decide, by decide⟩
  decide

/-- Report output names have the prefix of their own series UID. -/
theorem seriesKeyOf_uidname (a b : String) (h : '#' ∉ a.data) :
    seriesKeyOf (a ++ "#" ++ b ++ ".dcm") = a := by
  rw [String.append_assoc (a ++ "#") b (".dcm")]
  exact seriesKeyOf_hash a (b ++ ".dcm") h

/-- Every name of one spec block carries the prefix `uidf j` for an index
`j` between the invocation's series-UID index and its report series-UID
index. -/
theorem specBlock_prefix_bound (uidf : Nat → String) (c0 : Nat) (files : List String)
    (hnh0 : '#' ∉ (uidf c0).data)
    (hnh1 : '#' ∉ (uidf (c0 + files.length + 1)).data) :
    ∀ n ∈ specBlock uidf c0 files,
      ∃ j, c0 ≤ j ∧ j ≤ c0 + files.length + 1 ∧ seriesKeyOf n = uidf j := by
  intro n hn
  unfold specBlock at hn
  rcases List.mem_append.mp hn with h1 | h2
  · obtain ⟨f, _, hf⟩ := List.mem_map.mp h1
    refine ⟨c0, Nat.le_refl c0, by omega, ?_⟩
    rw [← hf]
    exact seriesKeyOf_hash (uidf c0) (tailAfter f) hnh0
  · by_cases he : files.isEmpty
    · rw [if_pos he] at h2
      cases h2
    · rw [if_neg he] at h2
      rcases List.mem_cons.mp h2 with h3 | h4
      · subst h3
        refine ⟨c0 + files.length + 1, by omega, Nat.le_refl _, ?_⟩
        rw [show c0 + files.length + 2 = c0 + files.length + 1 + 1 from rfl]
        exact seriesKeyOf_uidname (uidf (c0 + files.length + 1)) (uidf (c0 + files.length + 2)) hnh1
      · cases h4

/-- The UID counter never decreases over one group. -/
theorem le_nextC (c : Nat) (files : List String) : c + 1 ≤ nextC c files := by
  unfold nextC
  by_cases h : files.isEmpty
  · simp [h]
  · simp [h]
    omega

/-- The UID counter never decreases over a run. -/
theorem le_uidTotal : ∀ (grps : List (String × List String)) (c : Nat),
    c ≤ uidTotal grps c := by
  intro grps
  induction grps with
  | nil => intro c; exact Nat.le_refl c
  | cons kfs rest ih =>
      intro c
      calc c ≤ nextC c kfs.2 := Nat.le_of_succ_le (le_nextC c kfs.2)
        _ ≤ uidTotal rest (nextC c kfs.2) := ih _
        _ = uidTotal (kfs :: rest) c := rfl

/-- Every block of `specNames` is a `specBlock` of a non-empty group at a
counter inside the run's UID budget. -/
theorem specNames_block_spec (uidf : Nat → String) :
    ∀ (grps : List (String × List String)) (c : Nat),
    (∀ q ∈ grps, q.2 ≠ []) →
    ∀ blk ∈ specNames uidf grps c,
    ∃ c0 files, files ≠ [] ∧ c ≤ c0 ∧ c0 + files.length + 2 < uidTotal grps c ∧
      blk = specBlock uidf c0 files := by
  intro grps
  induction grps with
  | nil => intro c _ blk hblk; cases hblk
  | cons kfs rest ih =>
      intro c hq blk hblk
      have hne : kfs.2 ≠ [] := hq kfs (List.mem_cons_self _ _)
      have hemp : kfs.2.isEmpty = false := by
        cases hkfs : kfs.2 with
        | nil => exact absurd hkfs hne
        | cons x xs => rfl
      have hnext : nextC c kfs.2 = c + kfs.2.length + 4 := by
        unfold nextC
        rw [hemp]
        rfl
      rcases List.mem_cons.mp hblk with h1 | h2
      · refine ⟨c, kfs.2, hne, Nat.le_refl c, ?_, h1⟩
        calc c + kfs.2.length + 2 < c + kfs.2.length + 4 := by omega
          _ = nextC c kfs.2 := hnext.symm
          _ ≤ uidTotal rest (nextC c kfs.2) := le_uidTotal rest _
          _ = uidTotal (kfs :: rest) c := rfl
      · obtain ⟨c0, files, hf1, hf2, hf3, hf4⟩ :=
          ih (nextC c kfs.2) (fun q hq2 => hq q (List.mem_cons_of_mem _ hq2)) blk h2
        refine ⟨c0, files, hf1, ?_, hf3, hf4⟩
        calc c ≤ nextC c kfs.2 := Nat.le_of_succ_le (le_nextC c kfs.2)
          _ ≤ c0 := hf2

/-- The transformed-file part and the report part of a non-empty spec
block. -/
theorem specBlock_parts (uidf : Nat → String) (c0 : Nat) (files : List String)
    (hne : files ≠ []) :
    (specBlock uidf c0 files).dropLast =
      files.map (fun f => uidf c0 ++ "#" ++ tailAfter f) ∧
    (specBlock uidf c0 files).getLast? =
      some (uidf (c0 + files.length + 1) ++ "#" ++
        uidf (c0 + files.length + 2) ++ ".dcm") := by
  have hemp : files.isEmpty = false := by
    cases hf : files with
    | nil => exact absurd hf hne
    | cons x xs => rfl
  unfold specBlock
  rw [hemp]
  constructor
  · simp
  · simp

/-- Distinct invocations of the per-series loop produce blocks whose name
prefixes are pairwise disjoint, as long as the UID stream is injective on
the run's budget. -/
theorem specNames_pairwise (uidf : Nat → String) (N : Nat)
    (hinj : ∀ i, i < N → ∀ j, j < N → uidf i = uidf j → i = j)
    (hnh : ∀ j, j < N → '#' ∉ (uidf j).data) :
    ∀ (grps : List (String × List String)) (c : Nat),
    (∀ q ∈ grps, q.2 ≠ []) → uidTotal grps c ≤ N →
    (specNames uidf grps c).Pairwise
      (fun b1 b2 => ∀ n1 ∈ b1, ∀ n2 ∈ b2, seriesKeyOf n1 ≠ seriesKeyOf n2) := by
  intro grps
  induction grps with
  | nil => intro c _ _; exact List.Pairwise.nil
  | cons kfs rest ih =>
      intro c hq hN
      have hne : kfs.2 ≠ [] := hq kfs (List.mem_cons_self _ _)
      have hemp : kfs.2.isEmpty = false := by
        cases hf : kfs.2 with
        | nil => exact absurd hf hne
        | cons x xs => rfl
      have hnext : nextC c kfs.2 = c + kfs.2.length + 4 := by
        unfold nextC
        rw [hemp]
        rfl
      have hNrest : uidTotal rest (nextC c kfs.2) ≤ N := hN
      have hup : nextC c kfs.2 ≤ N :=
        Nat.le_trans (le_uidTotal rest _) hNrest
      refine List.Pairwise.cons ?_
        (ih (nextC c kfs.2) (fun q hq2 => hq q (List.mem_cons_of_mem _ hq2)) hNrest)
      intro b2 hb2 n1 hn1 n2 hn2
      obtain ⟨c0, files, hf1, hf2, hf3, hf4⟩ :=
        specNames_block_spec uidf rest (nextC c kfs.2)
          (fun q hq2 => hq q (List.mem_cons_of_mem _ hq2)) b2 hb2
      have hcN : c + kfs.2.length + 1 < N := by
        have : c + kfs.2.length + 1 < nextC c kfs.2 := by omega
        omega
      obtain ⟨j1, hj1a, hj1b, hj1c⟩ :=
        specBlock_prefix_bound uidf c kfs.2
          (hnh c (by omega)) (hnh (c + kfs.2.length + 1) (by omega)) n1 hn1
      have hc0N : c0 + files.length + 1 < N := by
        have := hf3
        omega
      obtain ⟨j2, hj2a, hj2b, hj2c⟩ :=
        specBlock_prefix_bound uidf c0 files
          (hnh c0 (by omega)) (hnh (c0 + files.length + 1) (by omega))
          n2 (hf4 ▸ hn2)
      intro hcontra
      rw [hj1c, hj2c] at hcontra
      have hj1N : j1 < N := by omega
      have hj2N : j2 < N := by omega
      have := hinj j1 hj1N j2 hj2N hcontra
      omega

/-- C3 amended: in a successful run, all transformed image files of one
invocation of the per-series loop share one filename prefix (the group's
fresh series UID), while the report file of that same invocation carries a
different prefix (its separately drawn fresh series UID)—this corrects the
claim that the report shares the images' prefix. Prefixes still differ
between distinct invocations and differ from every input series identifier,
provided the UID stream is injective on the run's budget, free of `#`, and
disjoint from the input series keys. The output names are exactly the
per-invocation blocks `specNames`. -/
theorem C3_output_prefixes_amended (kern : Int → List Rat) (uidf : Nat → String)
    (w : World) (a b c : String) (tj : Json) (st : List (String × Json)) (sg off : Int)
    (hargv : w.argv = [a, b, c]) (hb : w.pathExists b = true)
    (hc : w.pathExists c = true) (ht : w.task = .parsed tj)
    (hst : loadSettings tj = .ok st)
    (hsg : st.lookup ("sigma") = some (Json.num sg))
    (hoff : st.lookup ("series_offset") = some (Json.num off))
    (hfiles : ∀ q ∈ groupSeries w.listing, ∀ f ∈ q.2,
      '#' ∈ f.data ∧ (w.readDicom f).isSome)
    (hinj : ∀ i, i < uidTotal (groupSeries w.listing) 0 →
      ∀ j, j < uidTotal (groupSeries w.listing) 0 → uidf i = uidf j → i = j)
    (hnh : ∀ j, j < uidTotal (groupSeries w.listing) 0 → '#' ∉ (uidf j).data)
    (hfresh : ∀ j, j < uidTotal (groupSeries w.listing) 0 →
      ∀ q ∈ groupSeries w.listing, uidf j ≠ q.1) :
    ∃ outs,
      mainRun kern uidf w =
        .exited 0 [greetingLine, "Filter strength: " ++ pyStr (Json.num sg)] outs ∧
      outs.map Prod.fst = (specNames uidf (groupSeries w.listing) 0).flatten ∧
      (∀ blk ∈ specNames uidf (groupSeries w.listing) 0,
        ∃ p q, p ≠ q ∧ (∀ n ∈ blk.dropLast, seriesKeyOf n = p) ∧
          ∃ last, blk.getLast? = some last ∧ seriesKeyOf last = q) ∧
      (specNames uidf (groupSeries w.listing) 0).Pairwise
        (fun b1 b2 => ∀ n1 ∈ b1, ∀ n2 ∈ b2, seriesKeyOf n1 ≠ seriesKeyOf n2) ∧
      (∀ blk ∈ specNames uidf (groupSeries w.listing) 0, ∀ n ∈ blk,
        ∀ q ∈ groupSeries w.listing, seriesKeyOf n ≠ q.1) := by
  have hq : ∀ q ∈ groupSeries w.listing, q.2 ≠ [] := groupSeries_vals_ne_nil _
  have hgrps : ∀ p ∈ groupSeries w.listing, p.2 ≠ [] ∧ ∀ f ∈ p.2,
      '#' ∈ f.data ∧ (w.readDicom f).isSome :=
    fun p hp => ⟨hq p hp, hfiles p hp⟩
  obtain ⟨newOuts, hEq, hNames, _, _⟩ :=
    runGroups_ok w.readDicom st kern uidf
      [greetingLine, "Filter strength: " ++ pyStr (Json.num sg)] sg off hsg hoff
      (groupSeries w.listing) hgrps 0 []
  simp only [List.nil_append] at hEq
  refine ⟨newOuts, ?_, hNames, ?_, ?_, ?_⟩
  · rw [← hEq]
    simp [mainRun, hargv, ht, hb, hc, hst, runAfterSettings, hsg]
  · intro blk hblk
    obtain ⟨c0, files, hf1, hf2, hf3, hf4⟩ :=
      specNames_block_spec uidf (groupSeries w.listing) 0 hq blk hblk
    subst hf4
    obtain ⟨hdrop, hlast⟩ := specBlock_parts uidf c0 files hf1
    refine ⟨uidf c0, uidf (c0 + files.length + 1), ?_, ?_, ?_⟩
    · intro hpq
      have := hinj c0 (by omega) (c0 + files.length + 1) (by omega) hpq
      omega
    · rw [hdrop]
      intro n hn
      obtain ⟨f, _, hf⟩ := List.mem_map.mp hn
      rw [← hf]
      exact seriesKeyOf_hash _ _ (hnh c0 (by omega))
    · exact ⟨_, hlast, seriesKeyOf_uidname _ _ (hnh (c0 + files.length + 1) (by omega))⟩
  · exact specNames_pairwise uidf (uidTotal (groupSeries w.listing) 0) hinj hnh
      (groupSeries w.listing) 0 hq (Nat.le_refl _)
  · intro blk hblk n hn q hqmem
    obtain ⟨c0, files, hf1, hf2, hf3, hf4⟩ :=
      specNames_block_spec uidf (groupSeries w.listing) 0 hq blk hblk
    obtain ⟨j, hj1, hj2, hj3⟩ :=
      specBlock_prefix_bound uidf c0 files (hnh c0 (by omega))
        (hnh (c0 + files.length + 1) (by omega)) n (hf4 ▸ hn)
    rw [hj3]
    exact hfresh j (by omega) q hqmem

/-- Witness for C3 amended at a concrete two-group run (`A#1.dcm`,
`B#1.dcm`, descriptor `\x7b\x7d`, deterministic UID stream `U0, U1, ...`). -/
theorem C3_output_prefixes_amended_witness :
    ∃ outs,
      mainRun fixtureKern fixtureUid
          (fixtureWorld (.parsed (.obj []))
            [⟨("A#1.dcm"), false⟩, ⟨("B#1.dcm"), false⟩, ⟨("task.json"), false⟩]
            (fun _ => some fixtureDicom)) =
        .exited 0 [greetingLine, "Filter strength: " ++ pyStr (Json.num 7)] outs ∧
      outs.map Prod.fst =
        (specNames fixtureUid
          (groupSeries
            [⟨("A#1.dcm"), false⟩, ⟨("B#1.dcm"), false⟩, ⟨("task.json"), false⟩])
          0).flatten ∧
      (∀ blk ∈ specNames fixtureUid
          (groupSeries
            [⟨("A#1.dcm"), false⟩, ⟨("B#1.dcm"), false⟩, ⟨("task.json"), false⟩]) 0,
        ∃ p q, p ≠ q ∧ (∀ n ∈ blk.dropLast, seriesKeyOf n = p) ∧
          ∃ last, blk.getLast? = some last ∧ seriesKeyOf last = q) ∧
      (specNames fixtureUid
          (groupSeries
            [⟨("A#1.dcm"), false⟩, ⟨("B#1.dcm"), false⟩, ⟨("task.json"), false⟩])
          0).Pairwise
        (fun b1 b2 => ∀ n1 ∈ b1, ∀ n2 ∈ b2, seriesKeyOf n1 ≠ seriesKeyOf n2) ∧
      (∀ blk ∈ specNames fixtureUid
          (groupSeries
            [⟨("A#1.dcm"), false⟩, ⟨("B#1.dcm"), false⟩, ⟨("task.json"), false⟩]) 0,
        ∀ n ∈ blk,
        ∀ q ∈ groupSeries
            [⟨("A#1.dcm"), false⟩, ⟨("B#1.dcm"), false⟩, ⟨("task.json"), false⟩],
          seriesKeyOf n ≠ q.1) :=
  C3_output_prefixes_amended fixtureKern fixtureUid
    (fixtureWorld (.parsed (.obj []))
      [⟨("A#1.dcm"), false⟩, ⟨("B#1.dcm"), false⟩, ⟨("task.json"), false⟩]
      (fun _ => some fixtureDicom))
    ("testmodule") ("in") ("out") (.obj []) defaultSettings 7 3000
    rfl rfl rfl rfl rfl rfl rfl (by decide) (by decide) (by decide) (by decide)
